import Mathlib

/-! # STL volume calculator: embedding of `StlConverter.go` and `processSTL`

The Go program reads a binary STL file, sums the signed volumes of the
tetrahedra spanned by each triangle and the origin, and derives a volume in
cm3 / in3 and a weight.

Modelling conventions.

* The program is embedded twice.  In the namespace `StlVolume` Go's `float32`
  and `float64` are exact rationals (`ℚ`): every sum and product is exact, and
  a `float32` bit pattern with exponent field 255 (an infinity or a NaN), which
  has no rational value, is read as `0`.  This embedding carries the statements
  about files, handles, errors and caching, which no rounding touches, and the
  statements that are made in exact arithmetic.
* In the namespace `StlVolume.IEEE` a `float64` is an IEEE 754 binary64 value
  (`IEEE.F64`: signed zeros, subnormals, infinities, a NaN) and every operation
  rounds to nearest, ties to even, as Go's does.  This embedding gives the
  values the compiled code returns.  The conversion `int(f)` of a value outside
  the range of `int` is implementation-specific in Go; the embedding takes the
  result of amd64, `-2^63`.
* A Go method with a pointer receiver becomes a function that returns the
  result together with the updated receiver.
* A Go result `(value, err)` becomes a pair `value × Option GoError`, where
  `none` is Go's `nil` error.
* An `*os.File` is a record holding the (immutable) file contents, the stream
  position and whether the handle was closed; the field `calls` counts the
  `Seek` and read requests issued on the handle.  A `nil` handle is `none`.
-/

namespace StlVolume

/-! ## Bytes, errors, files -/

abbrev Byte := Fin 256

abbrev Float32 := ℚ

abbrev Float64 := ℚ

/-- The errors the standard library can hand back to this program. -/
inductive GoError
  | notExist
  | eof
  | unexpectedEOF
  | closed
  | invalid
  deriving DecidableEq, Repr

/-- An open `*os.File`. -/
structure File where
  data : List Byte
  pos : Nat
  closed : Bool
  calls : Nat
  deriving DecidableEq, Repr

/-- The file system: the contents stored under a path, if any. -/
abbrev FileSystem := String → Option (List Byte)

/-- Go `os.Open`. -/
def osOpen (fs : FileSystem) (name : String) : Option File × Option GoError :=
  match fs name with
  | none => (none, some GoError.notExist)
  | some d => (some { data := d, pos := 0, closed := false, calls := 0 }, none)

/-- Go `(*os.File).Close`. -/
def fileClose : Option File → Option File
  | none => none
  | some f => some { f with closed := true }

/-- Go `(*os.File).Seek(offset, 0)`: an absolute seek; seeking beyond the end
of a regular file succeeds. -/
def fileSeek (h : Option File) (offset : Nat) : Option GoError × Option File :=
  match h with
  | none => (some GoError.invalid, none)
  | some f =>
    if f.closed then (some GoError.closed, some { f with calls := f.calls + 1 })
    else (none, some { f with pos := offset, calls := f.calls + 1 })

/-- Go `io.ReadFull(h, buf)` with `len(buf) = n`, as used by `binary.Read`:
the bytes obtained, and `io.EOF` when none was left, `io.ErrUnexpectedEOF`
when fewer than `n` were left.  The stream advances by what was obtained. -/
def readFull (h : Option File) (n : Nat) : (List Byte × Option GoError) × Option File :=
  match h with
  | none => (([], some GoError.invalid), none)
  | some f =>
    if f.closed then (([], some GoError.closed), some { f with calls := f.calls + 1 })
    else
      let got := (f.data.drop f.pos).take n
      let f1 : File := { f with pos := f.pos + got.length, calls := f.calls + 1 }
      if got.length = n then ((got, none), some f1)
      else if got.length = 0 then ((got, some GoError.eof), some f1)
      else ((got, some GoError.unexpectedEOF), some f1)

/-! ## `encoding/binary` and `math` -/

/-- Little-endian value of a byte string (`binary.LittleEndian.Uint32` on four
bytes, `Uint16` on two). -/
def leUint (bs : List Byte) : Nat :=
  bs.foldr (fun b acc => b.val + 256 * acc) 0

/-- Go `math.Float32frombits`, on the finite patterns: sign bit 31, exponent
field bits 23..30, fraction bits 0..22. -/
def float32frombits (b : Nat) : Float32 :=
  let sign : Nat := b / 2 ^ 31 % 2
  let e : Nat := b / 2 ^ 23 % 256
  let m : Nat := b % 2 ^ 23
  let mag : ℚ :=
    if e = 0 then (m : ℚ) / ((2 ^ 149 : Nat) : ℚ)
    else if e = 255 then 0
    else if 150 ≤ e then (((2 ^ 23 + m) * 2 ^ (e - 150) : Nat) : ℚ)
    else ((2 ^ 23 + m : Nat) : ℚ) / ((2 ^ (150 - e) : Nat) : ℚ)
  if sign = 1 then -mag else mag

/-- Decoding of a `[3]float32` from its twelve bytes. -/
def decodeFloat32x3 (bs : List Byte) : Fin 3 → Float32 :=
  fun i => float32frombits (leUint ((bs.drop (4 * i.val)).take 4))

/-- Go `binary.Read(h, binary.LittleEndian, &count)` for `count uint32`. -/
def binaryReadUint32 (h : Option File) : (Nat × Option GoError) × Option File :=
  match readFull h 4 with
  | ((_, some err), h1) => ((0, some err), h1)
  | ((bs, none), h1) => ((leUint bs, none), h1)

/-- Go `binary.Read(h, binary.LittleEndian, &v)` for `v [3]float32`. -/
def binaryReadFloat32x3 (h : Option File) :
    ((Fin 3 → Float32) × Option GoError) × Option File :=
  match readFull h 12 with
  | ((_, some err), h1) => ((fun _ => 0, some err), h1)
  | ((bs, none), h1) => ((decodeFloat32x3 bs, none), h1)

/-- Go `binary.Read(h, binary.LittleEndian, &v)` for `v uint16`. -/
def binaryReadUint16 (h : Option File) : (Nat × Option GoError) × Option File :=
  match readFull h 2 with
  | ((_, some err), h1) => ((0, some err), h1)
  | ((bs, none), h1) => ((leUint bs, none), h1)

/-! ## The sniffing pattern -/

/-- One item of the sniffing pattern: a literal byte, or `[class]+`. -/
inductive PatItem
  | lit (c : Byte)
  | plus (cls : Byte → Bool)

/-- The bytes of an ASCII string. -/
def bytesOf (s : String) : List Byte :=
  s.toList.map fun ch => Fin.ofNat ch.toNat

/-- Regexp class `\s`: tab, line feed, form feed, carriage return, space. -/
def isSpace (b : Byte) : Bool :=
  b.val = 9 || b.val = 10 || b.val = 12 || b.val = 13 || b.val = 32

/-- Regexp class `[-\d.eE]`. -/
def isNumChar (b : Byte) : Bool :=
  b.val = 45 || (48 ≤ b.val && b.val ≤ 57) || b.val = 46 || b.val = 101 || b.val = 69

def litItems (s : String) : List PatItem :=
  (bytesOf s).map PatItem.lit

/-- The item `\s+`. -/
def ws : List PatItem := [PatItem.plus isSpace]

/-- The item `\s+([-\d.eE]+)`. -/
def wsNum : List PatItem := [PatItem.plus isSpace, PatItem.plus isNumChar]

/-- The expression `asciiPattern` of `isAscii`. -/
def asciiPattern : List PatItem :=
  litItems "facet normal" ++ wsNum ++ wsNum ++ wsNum ++ ws ++
  litItems "outer loop" ++ ws ++
  litItems "vertex" ++ wsNum ++ wsNum ++ wsNum ++ ws ++
  litItems "vertex" ++ wsNum ++ wsNum ++ wsNum ++ ws ++
  litItems "vertex" ++ wsNum ++ wsNum ++ wsNum ++ ws ++
  litItems "endloop" ++ ws ++
  litItems "endfacet"

/-- Matching of `[class]+` followed by the continuation `k`: one byte of the
class, then either more of the same or the continuation. -/
def plusLoop (cls : Byte → Bool) (k : List Byte → Bool) : List Byte → Bool
  | [] => false
  | b :: s => cls b && (plusLoop cls k s || k s)

/-- Whether the pattern matches at the start of the input. -/
def matchHere : List PatItem → List Byte → Bool
  | [] => fun _ => true
  | PatItem.lit c :: r => fun s =>
    match s with
    | [] => false
    | b :: s1 => b == c && matchHere r s1
  | PatItem.plus cls :: r => fun s => plusLoop cls (matchHere r) s

/-- Go `regexp.Match`: whether the pattern matches somewhere in the input. -/
def regexpMatch (pat : List PatItem) (buf : List Byte) : Bool :=
  buf.tails.any (matchHere pat)

/-! ## `StlConverter.go` -/

structure STLCalc where
  volume : Float64
  weight : Float64
  density : Float64
  trianglesCount : Nat
  bBinary : Bool
  fstlHandle : Option File
  fstlPath : String
  flag : Bool
  deriving DecidableEq

/-- Checks if the given file is an ASCII STL file: the first read of up to 512
bytes into a zeroed buffer, then the pattern search. -/
def isAscii (fs : FileSystem) (filename : String) : Bool × Option GoError :=
  match osOpen fs filename with
  | (none, err) => (false, err)
  | (some file, _) =>
    let got := file.data.take 512
    if got.length = 0 then (false, some GoError.eof)
    else
      let buffer := got ++ List.replicate (512 - got.length) (0 : Byte)
      (regexpMatch asciiPattern buffer, none)

def NewSTLCalc (fs : FileSystem) (filepath : String) : Option STLCalc × Option GoError :=
  let stl : STLCalc :=
    { volume := 0, weight := 0, density := 1.04, trianglesCount := 0, bBinary := false,
      fstlHandle := none, fstlPath := "", flag := false }
  match isAscii fs filepath with
  | (_, some err) => (none, some err)
  | (b, none) =>
    if !b then
      match osOpen fs filepath with
      | (_, some err) => (none, some err)
      | (file, none) =>
        (some { stl with bBinary := true, fstlHandle := file, fstlPath := filepath }, none)
    else (some stl, none)

def Close (c : STLCalc) : STLCalc :=
  { c with fstlHandle := fileClose c.fstlHandle }

def signedVolumeOfTriangle (p1 p2 p3 : Fin 3 → Float32) : Float64 :=
  let v321 := p3 0 * p2 1 * p1 2
  let v231 := p2 0 * p3 1 * p1 2
  let v312 := p3 0 * p1 1 * p2 2
  let v132 := p1 0 * p3 1 * p2 2
  let v213 := p2 0 * p1 1 * p3 2
  let v123 := p1 0 * p2 1 * p3 2
  (1 / 6) * (-v321 + v231 + v312 - v132 - v213 + v123)

def inch3 (_c : STLCalc) (volumeCm3 : Float64) : Float64 :=
  volumeCm3 * 0.0610237441

def calculateWeight (c : STLCalc) (volumeCm3 : Float64) : Float64 :=
  volumeCm3 * c.density

/-- Reads one 50-byte record and returns the signed volume of its triangle. -/
def readTriangle (c : STLCalc) : (Float64 × Option GoError) × STLCalc :=
  match binaryReadFloat32x3 c.fstlHandle with
  | ((_, some err), h1) => ((0, some err), { c with fstlHandle := h1 })
  | ((_, none), h1) =>
    match binaryReadFloat32x3 h1 with
    | ((_, some err), h2) => ((0, some err), { c with fstlHandle := h2 })
    | ((vertex1, none), h2) =>
      match binaryReadFloat32x3 h2 with
      | ((_, some err), h3) => ((0, some err), { c with fstlHandle := h3 })
      | ((vertex2, none), h3) =>
        match binaryReadFloat32x3 h3 with
        | ((_, some err), h4) => ((0, some err), { c with fstlHandle := h4 })
        | ((vertex3, none), h4) =>
          match binaryReadUint16 h4 with
          | ((_, some err), h5) => ((0, some err), { c with fstlHandle := h5 })
          | ((_, none), h5) =>
            ((signedVolumeOfTriangle vertex1 vertex2 vertex3, none), { c with fstlHandle := h5 })

/-- The loop of `readBinaryVolume` with `n` iterations left: the running total,
or the first error. -/
def readTriangles : Nat → Float64 → STLCalc → (Float64 × Option GoError) × STLCalc
  | 0, totalVolume, c => ((totalVolume, none), c)
  | n + 1, totalVolume, c =>
    match readTriangle c with
    | ((_, some err), c1) => ((0, some err), c1)
    | ((volume, none), c1) => readTriangles n (totalVolume + volume) c1

def readBinaryVolume (c : STLCalc) : (Float64 × Option GoError) × STLCalc :=
  match fileSeek c.fstlHandle 80 with
  | (some err, h1) => ((0, some err), { c with fstlHandle := h1 })
  | (none, h1) =>
    match binaryReadUint32 h1 with
    | ((_, some err), h2) => ((0, some err), { c with fstlHandle := h2 })
    | ((count, none), h2) =>
      match readTriangles count 0 { c with fstlHandle := h2, trianglesCount := count } with
      | ((_, some err), c1) => ((0, some err), c1)
      | ((totalVolume, none), c1) => ((|totalVolume|, none), c1)

def calculateVolume (c : STLCalc) : (Float64 × Option GoError) × STLCalc :=
  if c.bBinary then readBinaryVolume c
  else ((0, none), c)

def GetVolume (c : STLCalc) (unit : String) : (Float64 × Option GoError) × STLCalc :=
  let computed : Option GoError × STLCalc :=
    if !c.flag then
      match calculateVolume c with
      | ((_, some err), c1) => (some err, c1)
      | ((volume, none), c1) => (none, { c1 with volume := volume, flag := true })
    else (none, c)
  match computed with
  | (some err, c1) => ((0, some err), c1)
  | (none, c1) =>
    if unit = "cm" then ((c1.volume / 1000, none), c1)
    else ((inch3 c1 (c1.volume / 1000), none), c1)

def GetWeight (c : STLCalc) : (Float64 × Option GoError) × STLCalc :=
  match GetVolume c "cm" with
  | ((_, some err), c1) => ((0, some err), c1)
  | ((volume, none), c1) => ((calculateWeight c1 volume, none), c1)

def SetDensity (c : STLCalc) (density : Float64) : STLCalc :=
  { c with density := density }

def GetDensity (c : STLCalc) : Float64 :=
  c.density

def GetTrianglesCount (c : STLCalc) : Nat :=
  c.trianglesCount

/-! ## File layout -/

/-- The first `n` 50-byte records of a triangle body (short ones at the end of
a truncated body). -/
def records (body : List Byte) : Nat → List (List Byte)
  | 0 => []
  | n + 1 => body.take 50 :: records (body.drop 50) n

/-- The signed volume carried by one 50-byte record: bytes 12..23, 24..35 and
36..47 are the three vertices. -/
def recordVolume (r : List Byte) : Float64 :=
  signedVolumeOfTriangle (decodeFloat32x3 ((r.drop 12).take 12))
    (decodeFloat32x3 ((r.drop 24).take 12)) (decodeFloat32x3 ((r.drop 36).take 12))

/-- The triangle count declared by bytes 80..83. -/
def declaredCount (data : List Byte) : Nat :=
  leUint ((data.drop 80).take 4)

/-! ## Volumes and call sequences -/

/-- The volume in mm3 that a complete binary file carries. -/
def fileVolume (d : List Byte) : Float64 :=
  |((records (d.drop 84) (declaredCount d)).map recordVolume).sum|

/-- A call of one of the public methods that act on a model. -/
inductive Call
  | setDensity (density : Float64)
  | getVolume (unit : String)
  | getWeight
  | close

/-- The model after one call. -/
def applyCall (c : STLCalc) : Call → STLCalc
  | Call.setDensity density => SetDensity c density
  | Call.getVolume unit => (GetVolume c unit).2
  | Call.getWeight => (GetWeight c).2
  | Call.close => Close c

/-- The model after a sequence of calls. -/
def applyCalls (c : STLCalc) : List Call → STLCalc
  | [] => c
  | x :: xs => applyCalls (applyCall c x) xs

/-! ## Sample files -/

/-- A binary file declaring one triangle but holding only 30 bytes of it. -/
def truncatedFile : List Byte :=
  List.replicate 80 0 ++ [1, 0, 0, 0] ++ List.replicate 30 0

/-- A complete binary file with no triangle. -/
def emptyMesh : List Byte :=
  List.replicate 80 0 ++ [0, 0, 0, 0]

/-- A one-facet ASCII STL file. -/
def asciiSample : List Byte :=
  bytesOf ("solid a\nfacet normal 0 0 1\n outer loop\n vertex 0 0 0\n vertex 1 0 0\n" ++
    " vertex 0 1 0\n endloop\nendfacet\nendsolid a\n")

/-- The model `NewSTLCalc` builds for a file classified Binary. -/
def binaryModel (data : List Byte) (path : String) : STLCalc :=
  { volume := 0, weight := 0, density := 1.04, trianglesCount := 0, bBinary := true,
    fstlHandle := some ⟨data, 0, false, 0⟩, fstlPath := path, flag := false }

/-- The model `NewSTLCalc` builds for a file classified Ascii. -/
def asciiModel : STLCalc :=
  { volume := 0, weight := 0, density := 1.04, trianglesCount := 0, bBinary := false,
    fstlHandle := none, fstlPath := "", flag := false }

/-! ## Files built from triangles -/

/-- A triangle record as laid out in a binary STL file: the bytes of the
normal, of the three vertices, and of the attribute byte count. -/
structure Triangle where
  normal : List Byte
  vertex1 : List Byte
  vertex2 : List Byte
  vertex3 : List Byte
  attrByteCount : List Byte

/-- The field widths of a record: 12, 12, 12, 12 and 2 bytes. -/
def Triangle.WellFormed (t : Triangle) : Prop :=
  t.normal.length = 12 ∧ t.vertex1.length = 12 ∧ t.vertex2.length = 12 ∧
  t.vertex3.length = 12 ∧ t.attrByteCount.length = 2

/-- The 50 bytes of a record. -/
def Triangle.encode (t : Triangle) : List Byte :=
  t.normal ++ t.vertex1 ++ t.vertex2 ++ t.vertex3 ++ t.attrByteCount

/-- The signed volume of the tetrahedron under a triangle. -/
def Triangle.signedVolume (t : Triangle) : Float64 :=
  signedVolumeOfTriangle (decodeFloat32x3 t.vertex1) (decodeFloat32x3 t.vertex2)
    (decodeFloat32x3 t.vertex3)

/-- The triangle with two of its vertices exchanged: its winding reversed. -/
def Triangle.swap (t : Triangle) : Fin 3 → Triangle
  | 0 => { t with vertex1 := t.vertex2, vertex2 := t.vertex1 }
  | 1 => { t with vertex2 := t.vertex3, vertex3 := t.vertex2 }
  | 2 => { t with vertex1 := t.vertex3, vertex3 := t.vertex1 }

/-- The four little-endian bytes of a 32-bit count. -/
def uint32Bytes (n : Nat) : List Byte :=
  [Fin.ofNat n, Fin.ofNat (n / 2 ^ 8), Fin.ofNat (n / 2 ^ 16), Fin.ofNat (n / 2 ^ 24)]

/-- The triangle body of a file: the records one after the other, then
whatever follows them. -/
def stlBody (ts : List Triangle) (rest : List Byte) : List Byte :=
  ts.foldr (fun t acc => t.encode ++ acc) rest

/-- A binary STL file: header, count, records, and trailing bytes. -/
def binarySTL (header : List Byte) (ts : List Triangle) (rest : List Byte) : List Byte :=
  header ++ uint32Bytes ts.length ++ stlBody ts rest

/-! ## A cube -/

/-- The value of a `float32` given by its four little-endian bytes. -/
def float32OfBytes (bs : List Byte) : Float32 :=
  float32frombits (leUint bs)

/-- The twelve triangles of an axis-aligned box, two per face, wound
counter-clockwise seen from outside.  A vertex is named by the end of the
x, y and z extent it sits at (`false` the low end, `true` the high end). -/
def cubeFaces : List ((Bool × Bool × Bool) × (Bool × Bool × Bool) × (Bool × Bool × Bool)) :=
  [((false, false, true), (false, true, true), (false, true, false)),
   ((false, false, true), (false, true, false), (false, false, false)),
   ((true, false, false), (true, true, false), (true, true, true)),
   ((true, false, false), (true, true, true), (true, false, true)),
   ((true, false, false), (true, false, true), (false, false, true)),
   ((true, false, false), (false, false, true), (false, false, false)),
   ((false, true, false), (false, true, true), (true, true, true)),
   ((false, true, false), (true, true, true), (true, true, false)),
   ((false, true, false), (true, true, false), (true, false, false)),
   ((false, true, false), (true, false, false), (false, false, false)),
   ((false, false, true), (true, false, true), (true, true, true)),
   ((false, false, true), (true, true, true), (false, true, true))]

/-- The twelve bytes of a corner of the box, from the encodings of the low and
high end of each extent. -/
def corner (lo hi : Fin 3 → List Byte) (b : Bool × Bool × Bool) : List Byte :=
  (if b.1 then hi 0 else lo 0) ++ (if b.2.1 then hi 1 else lo 1) ++
  (if b.2.2 then hi 2 else lo 2)

/-- The records of the box; `inward` reverses the winding of every triangle;
the normals and attribute bytes are free. -/
def cubeTriangles (lo hi : Fin 3 → List Byte) (inward : Bool) (nrm attr : Nat → List Byte) :
    List Triangle :=
  cubeFaces.enum.map fun x =>
    if inward then
      { normal := nrm x.1, vertex1 := corner lo hi x.2.1, vertex2 := corner lo hi x.2.2.2,
        vertex3 := corner lo hi x.2.2.1, attrByteCount := attr x.1 }
    else
      { normal := nrm x.1, vertex1 := corner lo hi x.2.1, vertex2 := corner lo hi x.2.2.1,
        vertex3 := corner lo hi x.2.2.2, attrByteCount := attr x.1 }

/-- The encoding of `0.0`. -/
def zeroBytes : List Byte := [0, 0, 0, 0]

/-- The encoding of `10.0`, bit pattern `0x41200000`. -/
def tenBytes : List Byte := [0, 0, 0x20, 0x41]

/-- A binary STL file of the cube with corners `(0,0,0)` and `(10,10,10)`. -/
def cubeFile : List Byte :=
  binarySTL (List.replicate 80 0)
    (cubeTriangles (fun _ => zeroBytes) (fun _ => tenBytes) false
      (fun _ => List.replicate 12 0) (fun _ => [0, 0])) []

/-- The twelve records of `cubeFile`. -/
def sampleTriangles : List Triangle :=
  cubeTriangles (fun _ => zeroBytes) (fun _ => tenBytes) false
    (fun _ => List.replicate 12 0) (fun _ => [0, 0])

/-! ## A tetrahedron -/

/-- The four faces of the tetrahedron whose vertices have the given twelve-byte
encodings, wound consistently; `inward` reverses every face; the normals and
attribute bytes are free. -/
def tetraTriangles (va vb vc vd : List Byte) (inward : Bool) (nrm attr : Nat → List Byte) :
    List Triangle :=
  if inward then
    [{ normal := nrm 0, vertex1 := vb, vertex2 := vd, vertex3 := vc, attrByteCount := attr 0 },
     { normal := nrm 1, vertex1 := va, vertex2 := vc, vertex3 := vd, attrByteCount := attr 1 },
     { normal := nrm 2, vertex1 := va, vertex2 := vd, vertex3 := vb, attrByteCount := attr 2 },
     { normal := nrm 3, vertex1 := va, vertex2 := vb, vertex3 := vc, attrByteCount := attr 3 }]
  else
    [{ normal := nrm 0, vertex1 := vb, vertex2 := vc, vertex3 := vd, attrByteCount := attr 0 },
     { normal := nrm 1, vertex1 := va, vertex2 := vd, vertex3 := vc, attrByteCount := attr 1 },
     { normal := nrm 2, vertex1 := va, vertex2 := vb, vertex3 := vd, attrByteCount := attr 2 },
     { normal := nrm 3, vertex1 := va, vertex2 := vc, vertex3 := vb, attrByteCount := attr 3 }]

/-- The encoding of `20.0`, bit pattern `0x41A00000`. -/
def twentyBytes : List Byte := [0, 0, 0xA0, 0x41]

/-- The signed volume computed from the 36 vertex bytes of a record. -/
def vertexVolume (v : List Byte) : Float64 :=
  signedVolumeOfTriangle (decodeFloat32x3 (v.take 12)) (decodeFloat32x3 ((v.drop 12).take 12))
    (decodeFloat32x3 ((v.drop 24).take 12))

/-- The triangle with vertices `(10, 0, 0)`, `(0, 10, 0)`, `(0, 0, 10)`. -/
def cornerTriangle : Triangle :=
  { normal := List.replicate 12 0,
    vertex1 := tenBytes ++ zeroBytes ++ zeroBytes,
    vertex2 := zeroBytes ++ tenBytes ++ zeroBytes,
    vertex3 := zeroBytes ++ zeroBytes ++ tenBytes,
    attrByteCount := [0, 0] }

/-- A complete binary file holding the one triangle `cornerTriangle`. -/
def oneTriangleFile : List Byte :=
  binarySTL (List.replicate 80 0) [cornerTriangle] []

/-- The same triangle under another header, normal and attribute, followed by
trailing bytes. -/
def oneTriangleVariant : List Byte :=
  binarySTL (List.replicate 80 9)
    [{ cornerTriangle with normal := List.replicate 12 5, attrByteCount := [7, 7] }] [1, 2, 3]

/-! ## IEEE 754 binary64 arithmetic and the program over it

The definitions of this section repeat `StlConverter.go` and `processSTL` with
Go's float64 arithmetic: every product, sum and quotient is rounded to the
nearest float64, ties to even.  A `float32` is kept as its bit pattern. -/

namespace IEEE

abbrev Float32 := Nat

/-- A Go `float64`: a finite value `(-1)^neg * m * 2^e`, an infinity, or NaN. -/
inductive F64
  | fin (neg : Bool) (m : Nat) (e : Int)
  | inf (neg : Bool)
  | nan
  deriving DecidableEq, Repr

/-- The loop of `log2`, at most `fuel` halvings. -/
def log2Loop : Nat → Nat → Nat
  | 0, _ => 0
  | fuel + 1, n => if n < 2 then 0 else log2Loop fuel (n / 2) + 1

/-- The position of the leading bit: `2 ^ log2 n ≤ n < 2 ^ (log2 n + 1)` for `0 < n`. -/
def log2 (n : Nat) : Nat := log2Loop n n

/-- The float64 nearest to the rational `num / den` (`0 < den`), ties to the
even mantissa, with sign `neg`: a normal result has `2^52 ≤ m < 2^53`, a
subnormal one has `e = -1074`, a value beyond the largest finite one becomes an
infinity. -/
def round64 (neg : Bool) (num den : Nat) : F64 :=
  if num = 0 then F64.fin neg 0 0
  else
    let e0 : Int := (log2 num : Int) - (log2 den : Int)
    let ge : Bool := if 0 ≤ e0 then den * 2 ^ e0.toNat ≤ num else den ≤ num * 2 ^ (-e0).toNat
    let E : Int := if ge then e0 else e0 - 1
    let q : Int := max (E - 52) (-1074)
    let N : Nat := if 0 ≤ q then num else num * 2 ^ (-q).toNat
    let D : Nat := if 0 ≤ q then den * 2 ^ q.toNat else den
    let n : Nat := N / D
    let r : Nat := N % D
    let m : Nat := if D < 2 * r ∨ (2 * r = D ∧ n % 2 = 1) then n + 1 else n
    if m = 0 then F64.fin neg 0 0
    else if m = 2 ^ 53 then (if 971 < q + 1 then F64.inf neg else F64.fin neg (2 ^ 52) (q + 1))
    else if 971 < q then F64.inf neg
    else F64.fin neg m q

/-- The float64 nearest to `m * 2^e`. -/
def roundScaled (neg : Bool) (m : Nat) (e : Int) : F64 :=
  if 0 ≤ e then round64 neg (m * 2 ^ e.toNat) 1 else round64 neg m (2 ^ (-e).toNat)

/-- Negation. -/
def F64.neg : F64 → F64
  | F64.fin s m e => F64.fin (!s) m e
  | F64.inf s => F64.inf (!s)
  | F64.nan => F64.nan

/-- Go `math.Abs`. -/
def F64.abs : F64 → F64
  | F64.fin _ m e => F64.fin false m e
  | F64.inf _ => F64.inf false
  | F64.nan => F64.nan

/-- The float64 product. -/
def F64.mul : F64 → F64 → F64
  | F64.fin s1 m1 e1, F64.fin s2 m2 e2 => roundScaled (xor s1 s2) (m1 * m2) (e1 + e2)
  | F64.fin s1 m1 _, F64.inf s2 => if m1 = 0 then F64.nan else F64.inf (xor s1 s2)
  | F64.inf s1, F64.fin s2 m2 _ => if m2 = 0 then F64.nan else F64.inf (xor s1 s2)
  | F64.inf s1, F64.inf s2 => F64.inf (xor s1 s2)
  | _, _ => F64.nan

/-- The float64 sum; an exact zero sum is `-0` only when both terms are negative. -/
def F64.add : F64 → F64 → F64
  | F64.fin s1 m1 e1, F64.fin s2 m2 e2 =>
    let e : Int := min e1 e2
    let a : Int := (if s1 then -1 else 1) * ((m1 * 2 ^ (e1 - e).toNat : Nat) : Int)
    let b : Int := (if s2 then -1 else 1) * ((m2 * 2 ^ (e2 - e).toNat : Nat) : Int)
    let z : Int := a + b
    if z = 0 then F64.fin (s1 && s2) 0 0 else roundScaled (decide (z < 0)) z.natAbs e
  | F64.fin _ _ _, F64.inf s2 => F64.inf s2
  | F64.inf s1, F64.fin _ _ _ => F64.inf s1
  | F64.inf s1, F64.inf s2 => if s1 = s2 then F64.inf s1 else F64.nan
  | _, _ => F64.nan

/-- The float64 difference. -/
def F64.sub (x y : F64) : F64 := F64.add x (F64.neg y)

/-- The float64 quotient. -/
def F64.div : F64 → F64 → F64
  | F64.fin s1 m1 e1, F64.fin s2 m2 e2 =>
    if m2 = 0 then (if m1 = 0 then F64.nan else F64.inf (xor s1 s2))
    else if 0 ≤ e1 - e2 then round64 (xor s1 s2) (m1 * 2 ^ (e1 - e2).toNat) m2
    else round64 (xor s1 s2) m1 (m2 * 2 ^ (e2 - e1).toNat)
  | F64.fin s1 _ _, F64.inf s2 => F64.fin (xor s1 s2) 0 0
  | F64.inf s1, F64.fin s2 _ _ => F64.inf (xor s1 s2)
  | _, _ => F64.nan

/-- Go `float64(x)` for a `float32` given by its bit pattern (sign bit 31,
exponent field bits 23..30, fraction bits 0..22): the conversion is exact. -/
def float64 (b : Nat) : F64 :=
  let sign : Bool := b / 2 ^ 31 % 2 = 1
  let e : Nat := b / 2 ^ 23 % 256
  let f : Nat := b % 2 ^ 23
  if e = 255 then (if f = 0 then F64.inf sign else F64.nan)
  else if e = 0 then roundScaled sign f (-149)
  else roundScaled sign (2 ^ 23 + f) ((e : Int) - 150)

/-- The function `signedVolumeOfTriangle`, every operation rounded as Go does
on amd64 (no fused multiply-add); the constant `1.0 / 6.0` is the float64
nearest to one sixth. -/
def signedVolumeOfTriangle (p1 p2 p3 : Fin 3 → Float32) : F64 :=
  let v321 := F64.mul (F64.mul (float64 (p3 0)) (float64 (p2 1))) (float64 (p1 2))
  let v231 := F64.mul (F64.mul (float64 (p2 0)) (float64 (p3 1))) (float64 (p1 2))
  let v312 := F64.mul (F64.mul (float64 (p3 0)) (float64 (p1 1))) (float64 (p2 2))
  let v132 := F64.mul (F64.mul (float64 (p1 0)) (float64 (p3 1))) (float64 (p2 2))
  let v213 := F64.mul (F64.mul (float64 (p2 0)) (float64 (p1 1))) (float64 (p3 2))
  let v123 := F64.mul (F64.mul (float64 (p1 0)) (float64 (p2 1))) (float64 (p3 2))
  F64.mul (round64 false 1 6)
    (F64.add (F64.sub (F64.sub (F64.add (F64.add (F64.neg v321) v231) v312) v132) v213) v123)

/-- The float64 nearest to a non-negative decimal constant `num / den`. -/
def constant (num den : Nat) : F64 := round64 false num den

/-- The value `0.0`. -/
def zero : F64 := F64.fin false 0 0

/-- Go `math.Round`: the nearest integer, halves away from zero; the result is
kept with exponent 0. -/
def mathRound : F64 → F64
  | F64.fin s m e =>
    if 0 ≤ e then F64.fin s m e
    else
      let d : Nat := 2 ^ (-e).toNat
      F64.fin s (if d ≤ 2 * (m % d) then m / d + 1 else m / d) 0
  | x => x

/-- Go `int(x)` for a `float64` on a 64-bit platform: the fraction is dropped;
for a value outside the range of `int`, an infinity or a NaN, Go leaves the
result to the implementation, and the amd64 result, the smallest `int`, is
taken here. -/
def intOfFloat64 : F64 → Int
  | F64.fin s m e =>
    let a : Nat := if 0 ≤ e then m * 2 ^ e.toNat else m / 2 ^ (-e).toNat
    let z : Int := if s then -(a : Int) else (a : Int)
    if -2 ^ 63 ≤ z ∧ z < 2 ^ 63 then z else -2 ^ 63
  | _ => -2 ^ 63

/-- The rational value of a finite float64. -/
def F64.toRat : F64 → ℚ
  | F64.fin s m e => (if s then -1 else 1) * (m : ℚ) * (2 : ℚ) ^ e
  | _ => 0

structure STLCalc where
  volume : F64
  weight : F64
  density : F64
  trianglesCount : Nat
  bBinary : Bool
  fstlHandle : Option File
  fstlPath : String
  flag : Bool
  deriving DecidableEq

/-- The bit patterns of a `[3]float32` read from its twelve bytes. -/
def decodeFloat32x3 (bs : List Byte) : Fin 3 → Float32 :=
  fun i => leUint ((bs.drop (4 * i.val)).take 4)

/-- Go `binary.Read(h, binary.LittleEndian, &v)` for `v [3]float32`. -/
def binaryReadFloat32x3 (h : Option File) :
    ((Fin 3 → Float32) × Option GoError) × Option File :=
  match readFull h 12 with
  | ((_, some err), h1) => ((fun _ => 0, some err), h1)
  | ((bs, none), h1) => ((decodeFloat32x3 bs, none), h1)

def NewSTLCalc (fs : FileSystem) (filepath : String) : Option STLCalc × Option GoError :=
  let stl : STLCalc :=
    { volume := zero, weight := zero, density := constant 104 100, trianglesCount := 0,
      bBinary := false, fstlHandle := none, fstlPath := "", flag := false }
  match isAscii fs filepath with
  | (_, some err) => (none, some err)
  | (b, none) =>
    if !b then
      match osOpen fs filepath with
      | (_, some err) => (none, some err)
      | (file, none) =>
        (some { stl with bBinary := true, fstlHandle := file, fstlPath := filepath }, none)
    else (some stl, none)

def Close (c : STLCalc) : STLCalc :=
  { c with fstlHandle := fileClose c.fstlHandle }

def inch3 (_c : STLCalc) (volumeCm3 : F64) : F64 :=
  F64.mul volumeCm3 (constant 610237441 10000000000)

def calculateWeight (c : STLCalc) (volumeCm3 : F64) : F64 :=
  F64.mul volumeCm3 c.density

def readTriangle (c : STLCalc) : (F64 × Option GoError) × STLCalc :=
  match binaryReadFloat32x3 c.fstlHandle with
  | ((_, some err), h1) => ((zero, some err), { c with fstlHandle := h1 })
  | ((_, none), h1) =>
    match binaryReadFloat32x3 h1 with
    | ((_, some err), h2) => ((zero, some err), { c with fstlHandle := h2 })
    | ((vertex1, none), h2) =>
      match binaryReadFloat32x3 h2 with
      | ((_, some err), h3) => ((zero, some err), { c with fstlHandle := h3 })
      | ((vertex2, none), h3) =>
        match binaryReadFloat32x3 h3 with
        | ((_, some err), h4) => ((zero, some err), { c with fstlHandle := h4 })
        | ((vertex3, none), h4) =>
          match binaryReadUint16 h4 with
          | ((_, some err), h5) => ((zero, some err), { c with fstlHandle := h5 })
          | ((_, none), h5) =>
            ((signedVolumeOfTriangle vertex1 vertex2 vertex3, none), { c with fstlHandle := h5 })

/-- The loop of `readBinaryVolume` with `n` iterations left. -/
def readTriangles : Nat → F64 → STLCalc → (F64 × Option GoError) × STLCalc
  | 0, totalVolume, c => ((totalVolume, none), c)
  | n + 1, totalVolume, c =>
    match readTriangle c with
    | ((_, some err), c1) => ((zero, some err), c1)
    | ((volume, none), c1) => readTriangles n (F64.add totalVolume volume) c1

def readBinaryVolume (c : STLCalc) : (F64 × Option GoError) × STLCalc :=
  match fileSeek c.fstlHandle 80 with
  | (some err, h1) => ((zero, some err), { c with fstlHandle := h1 })
  | (none, h1) =>
    match binaryReadUint32 h1 with
    | ((_, some err), h2) => ((zero, some err), { c with fstlHandle := h2 })
    | ((count, none), h2) =>
      match readTriangles count zero { c with fstlHandle := h2, trianglesCount := count } with
      | ((_, some err), c1) => ((zero, some err), c1)
      | ((totalVolume, none), c1) => ((F64.abs totalVolume, none), c1)

def calculateVolume (c : STLCalc) : (F64 × Option GoError) × STLCalc :=
  if c.bBinary then readBinaryVolume c
  else ((zero, none), c)

def GetVolume (c : STLCalc) (unit : String) : (F64 × Option GoError) × STLCalc :=
  let computed : Option GoError × STLCalc :=
    if !c.flag then
      match calculateVolume c with
      | ((_, some err), c1) => (some err, c1)
      | ((volume, none), c1) => (none, { c1 with volume := volume, flag := true })
    else (none, c)
  match computed with
  | (some err, c1) => ((zero, some err), c1)
  | (none, c1) =>
    if unit = "cm" then ((F64.div c1.volume (constant 1000 1), none), c1)
    else ((inch3 c1 (F64.div c1.volume (constant 1000 1)), none), c1)

def GetWeight (c : STLCalc) : (F64 × Option GoError) × STLCalc :=
  match GetVolume c "cm" with
  | ((_, some err), c1) => ((zero, some err), c1)
  | ((volume, none), c1) => ((calculateWeight c1 volume, none), c1)

def SetDensity (c : STLCalc) (density : F64) : STLCalc :=
  { c with density := density }

/-- The map returned by `processSTL`. -/
structure Response where
  volume : F64
  weight : F64
  price : Int
  deriving DecidableEq

/-- The function `processSTL`: the deferred `Close` acts on a model that is
dropped on return.  `NewSTLCalc` never returns a nil model without an error;
that case is mapped to an error. -/
def processSTL (fs : FileSystem) (filePath : String) (basePrice : F64) :
    Option Response × Option GoError :=
  match NewSTLCalc fs filePath with
  | (_, some err) => (none, some err)
  | (none, none) => (none, some GoError.invalid)
  | (some stlCalc, none) =>
    match GetVolume stlCalc "cm" with
    | ((_, some err), _) => (none, some err)
    | ((volume, none), c1) =>
      match GetWeight c1 with
      | ((_, some err), _) => (none, some err)
      | ((weight, none), _) =>
        let price := F64.mul volume basePrice
        let roundedValue := mathRound price
        let completePrice := intOfFloat64 roundedValue
        (some { volume := volume, weight := weight, price := completePrice }, none)

/-- The model `NewSTLCalc` builds for a file classified Binary. -/
def binaryModel (data : List Byte) (path : String) : STLCalc :=
  { volume := zero, weight := zero, density := constant 104 100, trianglesCount := 0,
    bBinary := true, fstlHandle := some ⟨data, 0, false, 0⟩, fstlPath := path, flag := false }

end IEEE

/-! ## Sample files for the rounded arithmetic -/

/-- The encoding of `8.0`, bit pattern `0x41000000`. -/
def eightBytes : List Byte := [0, 0, 0, 0x41]

/-- A binary STL file of the cube with corners `(0,0,0)` and `(8,8,8)`. -/
def cube8File : List Byte :=
  binarySTL (List.replicate 80 0)
    (cubeTriangles (fun _ => zeroBytes) (fun _ => eightBytes) false
      (fun _ => List.replicate 12 0) (fun _ => [0, 0])) []

/-- The `float32` values 0.1, 3.0, 0.7 (bit patterns `0x3dcccccd`, `0x40400000`,
`0x3f333333`). -/
def skewP1 : Fin 3 → Nat := ![0x3dcccccd, 0x40400000, 0x3f333333]

/-- The `float32` values 2.3, 0.2, 1.1. -/
def skewP2 : Fin 3 → Nat := ![0x40133333, 0x3e4ccccd, 0x3f8ccccd]

/-- The `float32` values 2.9, 0.2, 1.0. -/
def skewP3 : Fin 3 → Nat := ![0x4039999a, 0x3e4ccccd, 0x3f800000]

/-- The twelve bytes of a vertex given by three bit patterns. -/
def vertexBytes (p : Fin 3 → Nat) : List Byte :=
  uint32Bytes (p 0) ++ uint32Bytes (p 1) ++ uint32Bytes (p 2)

/-- The record of the triangle `skewP1 skewP2 skewP3`. -/
def skewTriangle : Triangle :=
  { normal := List.replicate 12 0, vertex1 := vertexBytes skewP1, vertex2 := vertexBytes skewP2,
    vertex3 := vertexBytes skewP3, attrByteCount := [0, 0] }

/-- A binary STL file holding the one triangle `skewTriangle`. -/
def skewFile : List Byte := binarySTL (List.replicate 80 0) [skewTriangle] []

/-- The same file with the first two vertices of the record exchanged. -/
def skewFileReversed : List Byte :=
  binarySTL (List.replicate 80 0) [skewTriangle.swap 0] []

/-- An ASCII STL file whose numbers are written with a signed exponent. -/
def asciiExponentSample : List Byte :=
  bytesOf ("solid a\nfacet normal 0.000000e+00 0.000000e+00 1.000000e+00\n outer loop\n" ++
    " vertex 0 0 0\n vertex 1 0 0\n vertex 0 1 0\n endloop\nendfacet\nendsolid a\n")

/-- A text whose "numeric" fields are the single characters `e`, `-` and `.`. -/
def looseSample : List Byte :=
  bytesOf ("facet normal e - . outer loop vertex e e e vertex - - - vertex . . . " ++
    "endloop endfacet")

/-! ## The byte strings the sniffing pattern accepts -/

/-- A token of the sniffing pattern: a keyword, a run of whitespace, or a field
matched by the class `[-\d.eE]+`. -/
inductive Token
  | word (s : String)
  | space
  | number

/-- The token sequence of the pattern: `facet normal <f> <f> <f> outer loop
vertex <f> <f> <f> vertex <f> <f> <f> vertex <f> <f> <f> endloop endfacet`,
the tokens separated by whitespace. -/
def facetGrammar : List Token :=
  [Token.word "facet normal", Token.space, Token.number, Token.space, Token.number,
   Token.space, Token.number, Token.space,
   Token.word "outer loop", Token.space,
   Token.word "vertex", Token.space, Token.number, Token.space, Token.number,
   Token.space, Token.number, Token.space,
   Token.word "vertex", Token.space, Token.number, Token.space, Token.number,
   Token.space, Token.number, Token.space,
   Token.word "vertex", Token.space, Token.number, Token.space, Token.number,
   Token.space, Token.number, Token.space,
   Token.word "endloop", Token.space,
   Token.word "endfacet"]

/-- The bytes of the class `\s`: space, tab, line feed, carriage return, form
feed. -/
def whitespaceBytes : List Byte := [32, 9, 10, 13, 12]

/-- The bytes of the class `[-\d.eE]`: `-`, the digits, `.`, `e`, `E`.  The
class has no `+`, and it does not ask for a digit. -/
def numericBytes : List Byte := bytesOf "-0123456789.eE"

/-- The byte strings that are instances of a token sequence: a keyword stands
for itself, whitespace for any non-empty run of bytes of `\s`, a field for any
non-empty run of bytes of `[-\d.eE]`. -/
def Derives : List Token → List Byte → Prop
  | [], m => m = []
  | Token.word s :: ts, m => ∃ m1, m = bytesOf s ++ m1 ∧ Derives ts m1
  | Token.space :: ts, m =>
    ∃ w m1, w ≠ [] ∧ (∀ b ∈ w, b ∈ whitespaceBytes) ∧ m = w ++ m1 ∧ Derives ts m1
  | Token.number :: ts, m =>
    ∃ n m1, n ≠ [] ∧ (∀ b ∈ n, b ∈ numericBytes) ∧ m = n ++ m1 ∧ Derives ts m1

/-- The byte string contains an instance of the token sequence of the
pattern. -/
def ContainsFacet (buf : List Byte) : Prop :=
  ∃ pre m post, buf = pre ++ m ++ post ∧ Derives facetGrammar m

/-- The byte strings a pattern matches in full. -/
def Matches : List PatItem → List Byte → Prop
  | [], m => m = []
  | PatItem.lit c :: r, m => ∃ m1, m = c :: m1 ∧ Matches r m1
  | PatItem.plus cls :: r, m =>
    ∃ run m1, run ≠ [] ∧ (∀ b ∈ run, cls b = true) ∧ m = run ++ m1 ∧ Matches r m1

/-- The pattern items of a token. -/
def patternOf : Token → List PatItem
  | Token.word s => litItems s
  | Token.space => [PatItem.plus isSpace]
  | Token.number => [PatItem.plus isNumChar]

/-- The item cannot match the byte 0. -/
def PatItem.rejectsZero : PatItem → Bool
  | PatItem.lit c => c != 0
  | PatItem.plus cls => !cls 0

/-- The pattern items of a token sequence. -/
def patternOfTokens : List Token → List PatItem
  | [] => []
  | t :: ts => patternOf t ++ patternOfTokens ts

/-- What the float64 code returns for the cube file at base price 1.5. -/
def cubeResponse : IEEE.Response :=
  { volume := IEEE.F64.fin false 9007199254740991 (-53),
    weight := IEEE.F64.fin false 4683743612465315 (-52),
    price := 1 }

/-! # Theorems -/

/-! ## Reading from an open handle -/

theorem readFull_ok (d : List Byte) (p k n : Nat) (h : p + n ≤ d.length) :
    readFull (some ⟨d, p, false, k⟩) n
      = (((d.drop p).take n, none), some ⟨d, p + n, false, k + 1⟩) := by
  have hl : ((d.drop p).take n).length = n := by
    rw [List.length_take, List.length_drop]
    exact min_eq_left (by omega)
  simp [readFull, hl]

theorem readFull_short (d : List Byte) (p k n : Nat) (hn : 0 < n) (h : d.length < p + n) :
    ∃ bs e p1, readFull (some ⟨d, p, false, k⟩) n
      = ((bs, some e), some ⟨d, p1, false, k + 1⟩) := by
  have hl : ((d.drop p).take n).length ≠ n := by
    rw [List.length_take, List.length_drop, min_eq_right (by omega)]
    omega
  by_cases h0 : ((d.drop p).take n).length = 0
  · refine ⟨(d.drop p).take n, GoError.eof, p + ((d.drop p).take n).length, ?_⟩
    simp only [readFull]
    rw [if_neg (by decide), if_neg hl, if_pos h0]
  · refine ⟨(d.drop p).take n, GoError.unexpectedEOF, p + ((d.drop p).take n).length, ?_⟩
    simp only [readFull]
    rw [if_neg (by decide), if_neg hl, if_neg h0]

theorem binaryReadUint32_ok (d : List Byte) (p k : Nat) (h : p + 4 ≤ d.length) :
    binaryReadUint32 (some ⟨d, p, false, k⟩)
      = ((leUint ((d.drop p).take 4), none), some ⟨d, p + 4, false, k + 1⟩) := by
  simp [binaryReadUint32, readFull_ok d p k 4 h]

theorem binaryReadUint32_short (d : List Byte) (p k : Nat) (h : d.length < p + 4) :
    ∃ e p1, binaryReadUint32 (some ⟨d, p, false, k⟩)
      = ((0, some e), some ⟨d, p1, false, k + 1⟩) := by
  obtain ⟨bs, e, p1, hr⟩ := readFull_short d p k 4 (by decide) h
  exact ⟨e, p1, by simp [binaryReadUint32, hr]⟩

theorem binaryReadFloat32x3_ok (d : List Byte) (p k : Nat) (h : p + 12 ≤ d.length) :
    binaryReadFloat32x3 (some ⟨d, p, false, k⟩)
      = ((decodeFloat32x3 ((d.drop p).take 12), none), some ⟨d, p + 12, false, k + 1⟩) := by
  simp [binaryReadFloat32x3, readFull_ok d p k 12 h]

theorem binaryReadFloat32x3_short (d : List Byte) (p k : Nat) (h : d.length < p + 12) :
    ∃ e p1, binaryReadFloat32x3 (some ⟨d, p, false, k⟩)
      = ((fun _ => 0, some e), some ⟨d, p1, false, k + 1⟩) := by
  obtain ⟨bs, e, p1, hr⟩ := readFull_short d p k 12 (by decide) h
  exact ⟨e, p1, by simp [binaryReadFloat32x3, hr]⟩

theorem binaryReadUint16_ok (d : List Byte) (p k : Nat) (h : p + 2 ≤ d.length) :
    binaryReadUint16 (some ⟨d, p, false, k⟩)
      = ((leUint ((d.drop p).take 2), none), some ⟨d, p + 2, false, k + 1⟩) := by
  simp [binaryReadUint16, readFull_ok d p k 2 h]

theorem binaryReadUint16_short (d : List Byte) (p k : Nat) (h : d.length < p + 2) :
    ∃ e p1, binaryReadUint16 (some ⟨d, p, false, k⟩)
      = ((0, some e), some ⟨d, p1, false, k + 1⟩) := by
  obtain ⟨bs, e, p1, hr⟩ := readFull_short d p k 2 (by decide) h
  exact ⟨e, p1, by simp [binaryReadUint16, hr]⟩

theorem recordVolume_at (d : List Byte) (p : Nat) :
    recordVolume ((d.drop p).take 50)
      = signedVolumeOfTriangle (decodeFloat32x3 ((d.drop (p + 12)).take 12))
          (decodeFloat32x3 ((d.drop (p + 12 + 12)).take 12))
          (decodeFloat32x3 ((d.drop (p + 12 + 12 + 12)).take 12)) := by
  simp only [recordVolume, List.drop_take, List.take_take, List.drop_drop]
  have e1 : min 12 (50 - 12) = 12 := by decide
  have e2 : min 12 (50 - 24) = 12 := by decide
  have e3 : min 12 (50 - 36) = 12 := by decide
  simp only [e1, e2, e3]

theorem readTriangle_ok (c : STLCalc) (d : List Byte) (p k : Nat)
    (hc : c.fstlHandle = some ⟨d, p, false, k⟩) (h : p + 50 ≤ d.length) :
    readTriangle c = ((recordVolume ((d.drop p).take 50), none),
      { c with fstlHandle := some ⟨d, p + 50, false, k + 5⟩ }) := by
  rw [recordVolume_at]
  simp only [readTriangle, hc]
  rw [binaryReadFloat32x3_ok d p k (by omega)]
  simp only
  rw [binaryReadFloat32x3_ok d (p + 12) (k + 1) (by omega)]
  simp only
  rw [binaryReadFloat32x3_ok d (p + 12 + 12) (k + 1 + 1) (by omega)]
  simp only
  rw [binaryReadFloat32x3_ok d (p + 12 + 12 + 12) (k + 1 + 1 + 1) (by omega)]
  simp only
  rw [binaryReadUint16_ok d (p + 12 + 12 + 12 + 12) (k + 1 + 1 + 1 + 1) (by omega)]

theorem readTriangle_short (c : STLCalc) (d : List Byte) (p k : Nat)
    (hc : c.fstlHandle = some ⟨d, p, false, k⟩) (h : d.length < p + 50) :
    ∃ e p1 k1, readTriangle c
      = ((0, some e), { c with fstlHandle := some ⟨d, p1, false, k1⟩ }) := by
  simp only [readTriangle, hc]
  by_cases h1 : p + 12 ≤ d.length
  · rw [binaryReadFloat32x3_ok d p k h1]
    simp only
    by_cases h2 : p + 12 + 12 ≤ d.length
    · rw [binaryReadFloat32x3_ok d (p + 12) (k + 1) h2]
      simp only
      by_cases h3 : p + 12 + 12 + 12 ≤ d.length
      · rw [binaryReadFloat32x3_ok d (p + 12 + 12) (k + 1 + 1) h3]
        simp only
        by_cases h4 : p + 12 + 12 + 12 + 12 ≤ d.length
        · rw [binaryReadFloat32x3_ok d (p + 12 + 12 + 12) (k + 1 + 1 + 1) h4]
          simp only
          obtain ⟨e, p1, hr⟩ :=
            binaryReadUint16_short d (p + 12 + 12 + 12 + 12) (k + 1 + 1 + 1 + 1) (by omega)
          rw [hr]
          exact ⟨e, p1, _, rfl⟩
        · obtain ⟨e, p1, hr⟩ :=
            binaryReadFloat32x3_short d (p + 12 + 12 + 12) (k + 1 + 1 + 1) (by omega)
          rw [hr]
          exact ⟨e, p1, _, rfl⟩
      · obtain ⟨e, p1, hr⟩ := binaryReadFloat32x3_short d (p + 12 + 12) (k + 1 + 1) (by omega)
        rw [hr]
        exact ⟨e, p1, _, rfl⟩
    · obtain ⟨e, p1, hr⟩ := binaryReadFloat32x3_short d (p + 12) (k + 1) (by omega)
      rw [hr]
      exact ⟨e, p1, _, rfl⟩
  · obtain ⟨e, p1, hr⟩ := binaryReadFloat32x3_short d p k (by omega)
    rw [hr]
    exact ⟨e, p1, _, rfl⟩

theorem readTriangles_ok (n : Nat) : ∀ (total : Float64) (c : STLCalc) (d : List Byte) (p k : Nat),
    c.fstlHandle = some ⟨d, p, false, k⟩ → p + 50 * n ≤ d.length →
    readTriangles n total c
      = ((total + ((records (d.drop p) n).map recordVolume).sum, none),
          { c with fstlHandle := some ⟨d, p + 50 * n, false, k + 5 * n⟩ }) := by
  induction n with
  | zero =>
    intro total c d p k hc _
    simp [readTriangles, records, ← hc]
  | succ n ih =>
    intro total c d p k hc h
    rw [readTriangles, readTriangle_ok c d p k hc (by omega)]
    simp only
    rw [ih _ _ d (p + 50) (k + 5) rfl (by omega)]
    have e1 : p + 50 + 50 * n = p + 50 * (n + 1) := by ring
    have e2 : k + 5 + 5 * n = k + 5 * (n + 1) := by ring
    have e3 : List.drop 50 (List.drop p d) = List.drop (p + 50) d := by
      rw [List.drop_drop, Nat.add_comm]
    simp only [records, List.map_cons, List.sum_cons, e1, e2, e3, add_assoc]

theorem readTriangles_short (n : Nat) : ∀ (total : Float64) (c : STLCalc) (d : List Byte)
    (p k : Nat), c.fstlHandle = some ⟨d, p, false, k⟩ → p ≤ d.length →
    d.length < p + 50 * n →
    ∃ e p1 k1, readTriangles n total c
      = ((0, some e), { c with fstlHandle := some ⟨d, p1, false, k1⟩ }) := by
  induction n with
  | zero =>
    intro total c d p k _ hp h
    omega
  | succ n ih =>
    intro total c d p k hc hp h
    by_cases h1 : p + 50 ≤ d.length
    · rw [readTriangles, readTriangle_ok c d p k hc h1]
      simp only
      obtain ⟨e, p1, k1, hr⟩ := ih (total + recordVolume ((d.drop p).take 50))
        { c with fstlHandle := some ⟨d, p + 50, false, k + 5⟩ } d (p + 50) (k + 5) rfl h1 (by omega)
      exact ⟨e, p1, k1, hr⟩
    · obtain ⟨e, p1, k1, hr⟩ := readTriangle_short c d p k hc (by omega)
      rw [readTriangles, hr]
      exact ⟨e, p1, k1, rfl⟩

theorem readBinaryVolume_ok (c : STLCalc) (d : List Byte) (p k : Nat)
    (hc : c.fstlHandle = some ⟨d, p, false, k⟩)
    (h : 84 + 50 * declaredCount d ≤ d.length) :
    readBinaryVolume c
      = ((|((records (d.drop 84) (declaredCount d)).map recordVolume).sum|, none),
          { c with fstlHandle := some ⟨d, 84 + 50 * declaredCount d, false,
                                        k + 2 + 5 * declaredCount d⟩,
                   trianglesCount := declaredCount d }) := by
  simp only [readBinaryVolume, hc, fileSeek]
  rw [if_neg (by decide)]
  simp only
  rw [binaryReadUint32_ok d 80 (k + 1) (by omega)]
  simp only
  rw [readTriangles_ok (leUint ((d.drop 80).take 4)) 0 _ d (80 + 4) (k + 1 + 1) rfl
    (by unfold declaredCount at h; omega)]
  simp [declaredCount]

theorem readBinaryVolume_short (c : STLCalc) (d : List Byte) (p k : Nat)
    (hc : c.fstlHandle = some ⟨d, p, false, k⟩) (h84 : 84 ≤ d.length)
    (h : d.length < 84 + 50 * declaredCount d) :
    ∃ e p1 k1, readBinaryVolume c
      = ((0, some e), { c with fstlHandle := some ⟨d, p1, false, k1⟩,
                               trianglesCount := declaredCount d }) := by
  simp only [readBinaryVolume, hc, fileSeek]
  rw [if_neg (by decide)]
  simp only
  rw [binaryReadUint32_ok d 80 (k + 1) (by omega)]
  simp only
  obtain ⟨e, p1, k1, hr⟩ := readTriangles_short (leUint ((d.drop 80).take 4)) 0
    { c with fstlHandle := some ⟨d, 80 + 4, false, k + 1 + 1⟩,
             trianglesCount := leUint ((d.drop 80).take 4) } d (80 + 4) (k + 1 + 1) rfl
    (by omega) (by unfold declaredCount at h; omega)
  rw [hr]
  exact ⟨e, p1, k1, rfl⟩

theorem readBinaryVolume_header_short (c : STLCalc) (d : List Byte) (p k : Nat)
    (hc : c.fstlHandle = some ⟨d, p, false, k⟩) (h84 : d.length < 84) :
    ∃ e p1 k1, readBinaryVolume c
      = ((0, some e), { c with fstlHandle := some ⟨d, p1, false, k1⟩ }) := by
  simp only [readBinaryVolume, hc, fileSeek]
  rw [if_neg (by decide)]
  simp only
  obtain ⟨e, p1, hr⟩ := binaryReadUint32_short d 80 (k + 1) (by omega)
  rw [hr]
  exact ⟨e, p1, _, rfl⟩

theorem GetVolume_binary_ok (c : STLCalc) (d : List Byte) (p k : Nat) (u : String)
    (hb : c.bBinary = true) (hf : c.flag = false)
    (hc : c.fstlHandle = some ⟨d, p, false, k⟩)
    (h : 84 + 50 * declaredCount d ≤ d.length) :
    GetVolume c u
      = ((if u = "cm" then fileVolume d / 1000 else fileVolume d / 1000 * 0.0610237441, none),
          { c with fstlHandle := some ⟨d, 84 + 50 * declaredCount d, false,
                                        k + 2 + 5 * declaredCount d⟩,
                   trianglesCount := declaredCount d,
                   volume := fileVolume d, flag := true }) := by
  simp only [GetVolume, hf, calculateVolume, hb, if_true, Bool.not_false,
    readBinaryVolume_ok c d p k hc h, inch3, fileVolume]
  split_ifs <;> rfl

theorem GetVolume_binary_short (c : STLCalc) (d : List Byte) (p k : Nat) (u : String)
    (hb : c.bBinary = true) (hf : c.flag = false)
    (hc : c.fstlHandle = some ⟨d, p, false, k⟩) (h84 : 84 ≤ d.length)
    (h : d.length < 84 + 50 * declaredCount d) :
    ∃ e p1 k1, GetVolume c u
      = ((0, some e), { c with fstlHandle := some ⟨d, p1, false, k1⟩,
                               trianglesCount := declaredCount d }) := by
  obtain ⟨e, p1, k1, hr⟩ := readBinaryVolume_short c d p k hc h84 h
  refine ⟨e, p1, k1, ?_⟩
  simp only [GetVolume, hf, calculateVolume, hb, if_true, Bool.not_false, hr]

theorem isAscii_of_new (fs : FileSystem) (path : String) (c : STLCalc)
    (hnew : NewSTLCalc fs path = (some c, none)) :
    (isAscii fs path) = (!c.bBinary, none) := by
  unfold NewSTLCalc at hnew
  rcases hi : isAscii fs path with ⟨b, _ | err⟩
  · rw [hi] at hnew
    cases b
    · simp only [Bool.not_false, if_true] at hnew
      rcases ho : osOpen fs path with ⟨file, _ | err⟩
      · rw [ho] at hnew
        simp only [Prod.mk.injEq, Option.some.injEq, and_true] at hnew
        subst hnew
        rfl
      · rw [ho] at hnew
        simp at hnew
    · simp only [Bool.not_true, Bool.false_eq_true, if_false, Prod.mk.injEq, Option.some.injEq,
        and_true] at hnew
      subst hnew
      rfl
  · rw [hi] at hnew
    simp at hnew

theorem NewSTLCalc_binary (fs : FileSystem) (path : String) (data : List Byte) (c : STLCalc)
    (hfs : fs path = some data) (hnew : NewSTLCalc fs path = (some c, none))
    (hb : c.bBinary = true) :
    c = { volume := 0, weight := 0, density := 1.04, trianglesCount := 0, bBinary := true,
          fstlHandle := some ⟨data, 0, false, 0⟩, fstlPath := path, flag := false } := by
  have hi := isAscii_of_new fs path c hnew
  rw [hb] at hi
  simp only [NewSTLCalc, hi, osOpen, hfs, Bool.not_true, Bool.not_false, if_true, Prod.mk.injEq,
    Option.some.injEq, and_true] at hnew
  exact hnew.symm

theorem NewSTLCalc_ascii (fs : FileSystem) (path : String) (c : STLCalc)
    (hnew : NewSTLCalc fs path = (some c, none)) (hb : c.bBinary = false) :
    c = { volume := 0, weight := 0, density := 1.04, trianglesCount := 0, bBinary := false,
          fstlHandle := none, fstlPath := "", flag := false } := by
  have hi := isAscii_of_new fs path c hnew
  rw [hb] at hi
  simp only [NewSTLCalc, hi, Bool.not_true, Bool.not_false, Bool.false_eq_true, if_false,
    Prod.mk.injEq, Option.some.injEq, and_true] at hnew
  exact hnew.symm

theorem NewSTLCalc_of_isAscii_false (fs : FileSystem) (path : String) (data : List Byte)
    (hfs : fs path = some data) (hi : isAscii fs path = (false, none)) :
    NewSTLCalc fs path
      = (some { volume := 0, weight := 0, density := 1.04, trianglesCount := 0, bBinary := true,
                fstlHandle := some ⟨data, 0, false, 0⟩, fstlPath := path, flag := false },
         none) := by
  simp only [NewSTLCalc, hi, osOpen, hfs, Bool.not_false, if_true]

theorem NewSTLCalc_of_isAscii_true (fs : FileSystem) (path : String)
    (hi : isAscii fs path = (true, none)) :
    NewSTLCalc fs path
      = (some { volume := 0, weight := 0, density := 1.04, trianglesCount := 0, bBinary := false,
                fstlHandle := none, fstlPath := "", flag := false },
         none) := by
  simp only [NewSTLCalc, hi, Bool.not_true, Bool.false_eq_true, if_false]

/-! ## Properties of the public methods -/

/-- C1: the signed volume of a triangle is one sixth of the determinant of the
matrix whose rows are its three vertices; the six products enter with the
signs of the permutation expansion of that determinant. -/
theorem signedVolumeOfTriangle_eq_det (p1 p2 p3 : Fin 3 → Float32) :
    signedVolumeOfTriangle p1 p2 p3 = (1 / 6) * (Matrix.of ![p1, p2, p3]).det ∧
    signedVolumeOfTriangle p1 p2 p3
      = (1 / 6) * ∑ σ : Equiv.Perm (Fin 3), ((Equiv.Perm.sign σ : ℤ) : ℚ) *
          (![p1, p2, p3] (σ 0) 0 * ![p1, p2, p3] (σ 1) 1 * ![p1, p2, p3] (σ 2) 2) := by
  have hdet : signedVolumeOfTriangle p1 p2 p3 = (1 / 6) * (Matrix.of ![p1, p2, p3]).det := by
    rw [Matrix.det_fin_three]
    simp only [signedVolumeOfTriangle, Matrix.of_apply, Matrix.cons_val_zero,
      Matrix.cons_val_one, Matrix.cons_val_two, Matrix.head_cons, Matrix.tail_cons]
    ring
  refine ⟨hdet, ?_⟩
  rw [hdet, Matrix.det_apply]
  congr 1
  refine Finset.sum_congr rfl (fun σ _ => ?_)
  rw [Fin.prod_univ_three, Matrix.of_apply, Matrix.of_apply, Matrix.of_apply]
  rcases Int.units_eq_one_or (Equiv.Perm.sign σ) with h | h <;> simp [h]

theorem GetVolume_of_flag (c : STLCalc) (u : String) (hf : c.flag = true) :
    GetVolume c u
      = ((if u = "cm" then c.volume / 1000 else c.volume / 1000 * 0.0610237441, none), c) := by
  simp only [GetVolume, hf, inch3, Bool.not_true, Bool.false_eq_true, if_false]
  split_ifs <;> rfl

theorem GetVolume_ok_flag (c : STLCalc) (u : String) (h : (GetVolume c u).1.2 = none) :
    (GetVolume c u).2.flag = true ∧
    (GetVolume c u).1
      = (if u = "cm" then (GetVolume c u).2.volume / 1000
          else (GetVolume c u).2.volume / 1000 * 0.0610237441, none) := by
  by_cases hf : c.flag = true
  · rw [GetVolume_of_flag c u hf]
    exact ⟨hf, rfl⟩
  · have hf' : c.flag = false := by simpa using hf
    revert h
    simp only [GetVolume, hf', Bool.not_false, if_true, inch3]
    rcases calculateVolume c with ⟨⟨v, _ | e⟩, c1⟩
    · intro _
      refine ⟨?_, ?_⟩
      · split_ifs <;> rfl
      · split_ifs <;> rfl
    · intro h
      simp at h

theorem GetVolume_again (c : STLCalc) (u : String) (h : (GetVolume c u).1.2 = none) :
    GetVolume (GetVolume c u).2 u = ((GetVolume c u).1, (GetVolume c u).2) := by
  obtain ⟨hflag, hval⟩ := GetVolume_ok_flag c u h
  rw [GetVolume_of_flag _ u hflag, hval]

/-- C3: on a file of at least 84 bytes classified Binary, the first `GetVolume`
succeeds exactly when the file holds all the records its count field
declares; otherwise it returns an error together with the value 0. -/
theorem GetVolume_succeeds_iff_complete (fs : FileSystem) (path : String) (data : List Byte)
    (c : STLCalc) (u : String)
    (hfs : fs path = some data) (hnew : NewSTLCalc fs path = (some c, none))
    (hb : c.bBinary = true) (hL : 84 ≤ data.length) :
    ((GetVolume c u).1.2 = none ↔ 84 + 50 * declaredCount data ≤ data.length) ∧
    (data.length < 84 + 50 * declaredCount data → ∃ e, (GetVolume c u).1 = (0, some e)) := by
  have hc := NewSTLCalc_binary fs path data c hfs hnew hb
  have hf : c.flag = false := by rw [hc]
  have hh : c.fstlHandle = some ⟨data, 0, false, 0⟩ := by rw [hc]
  have hshort : data.length < 84 + 50 * declaredCount data →
      ∃ e, (GetVolume c u).1 = (0, some e) := by
    intro h
    obtain ⟨e, p1, k1, hr⟩ := GetVolume_binary_short c data 0 0 u hb hf hh hL h
    exact ⟨e, by rw [hr]⟩
  refine ⟨⟨?_, ?_⟩, hshort⟩
  · intro hok
    by_contra hlt
    obtain ⟨e, he⟩ := hshort (by omega)
    rw [he] at hok
    exact absurd hok (by simp)
  · intro h
    rw [GetVolume_binary_ok c data 0 0 u hb hf hh h]

set_option maxRecDepth 100000 in
theorem GetVolume_succeeds_iff_complete_witness :
    ((GetVolume (binaryModel truncatedFile "t.stl") "cm").1.2 = none
      ↔ 84 + 50 * declaredCount truncatedFile ≤ truncatedFile.length) ∧
    (truncatedFile.length < 84 + 50 * declaredCount truncatedFile →
      ∃ e, (GetVolume (binaryModel truncatedFile "t.stl") "cm").1 = (0, some e)) :=
  GetVolume_succeeds_iff_complete (fun _ => some truncatedFile) "t.stl" truncatedFile
    (binaryModel truncatedFile "t.stl") "cm" rfl
    (NewSTLCalc_of_isAscii_false _ _ truncatedFile rfl (by decide)) rfl (by decide)

theorem fileSeek_closed (f : File) (n : Nat) (h : f.closed = true) :
    fileSeek (some f) n = (some GoError.closed, some { f with calls := f.calls + 1 }) := by
  simp only [fileSeek, h, if_true]

theorem GetVolume_truncated (c : STLCalc) (f : File) (u : String)
    (hb : c.bBinary = true) (hf : c.flag = false) (hc : c.fstlHandle = some f)
    (h84 : 84 ≤ f.data.length) (h : f.data.length < 84 + 50 * declaredCount f.data) :
    ∃ e f1, (GetVolume c u).1 = (0, some e) ∧ (GetVolume c u).2.bBinary = true ∧
      (GetVolume c u).2.flag = false ∧ (GetVolume c u).2.volume = c.volume ∧
      (GetVolume c u).2.fstlHandle = some f1 ∧ f1.data = f.data := by
  obtain ⟨d, p, cl, k⟩ := f
  cases cl
  · obtain ⟨e, p1, k1, hr⟩ := GetVolume_binary_short c d p k u hb hf hc h84 h
    rw [hr]
    exact ⟨e, _, rfl, hb, hf, rfl, rfl, rfl⟩
  · have hr : GetVolume c u
        = ((0, some GoError.closed), { c with fstlHandle := some ⟨d, p, true, k + 1⟩ }) := by
      simp only [GetVolume, hf, calculateVolume, hb, readBinaryVolume, hc,
        fileSeek_closed ⟨d, p, true, k⟩ 80 rfl, Bool.not_false, if_true]
    rw [hr]
    exact ⟨_, _, rfl, hb, hf, rfl, rfl, rfl⟩

theorem applyCalls_truncated (d : List Byte) (h84 : 84 ≤ d.length)
    (h : d.length < 84 + 50 * declaredCount d) (xs : List Call) :
    ∀ (c : STLCalc) (f : File), c.bBinary = true → c.flag = false →
      c.fstlHandle = some f → f.data = d →
      ∃ f1, (applyCalls c xs).bBinary = true ∧ (applyCalls c xs).flag = false ∧
        (applyCalls c xs).fstlHandle = some f1 ∧ f1.data = d ∧
        (applyCalls c xs).volume = c.volume := by
  induction xs with
  | nil =>
    intro c f hb hf hc hd
    exact ⟨f, hb, hf, hc, hd, rfl⟩
  | cons x xs ih =>
    intro c f hb hf hc hd
    subst hd
    have step : ∃ f1, (applyCall c x).bBinary = true ∧ (applyCall c x).flag = false ∧
        (applyCall c x).fstlHandle = some f1 ∧ f1.data = f.data ∧
        (applyCall c x).volume = c.volume := by
      cases x with
      | setDensity density => exact ⟨f, hb, hf, hc, rfl, rfl⟩
      | getVolume unit =>
        obtain ⟨e, f1, _, h1, h2, h3, h4, h5⟩ := GetVolume_truncated c f unit hb hf hc h84 h
        exact ⟨f1, h1, h2, h4, h5, h3⟩
      | getWeight =>
        obtain ⟨e, f1, h0, h1, h2, h3, h4, h5⟩ := GetVolume_truncated c f "cm" hb hf hc h84 h
        have hw : (GetWeight c).2 = (GetVolume c "cm").2 := by
          rw [GetWeight]
          rcases hg : GetVolume c "cm" with ⟨⟨v, _ | e1⟩, c1⟩
          · simp [hg] at h0
          · rfl
        exact ⟨f1, by rw [applyCall, hw]; exact h1, by rw [applyCall, hw]; exact h2,
          by rw [applyCall, hw]; exact h4, h5, by rw [applyCall, hw]; exact h3⟩
      | close =>
        refine ⟨{ f with closed := true }, hb, hf, ?_, rfl, rfl⟩
        simp only [applyCall, Close, hc, fileClose]
    obtain ⟨f1, h1, h2, h3, h4, h5⟩ := step
    obtain ⟨f2, g1, g2, g3, g4, g5⟩ := ih (applyCall c x) f1 h1 h2 h3 h4
    exact ⟨f2, g1, g2, g3, g4, by rw [applyCalls, g5, h5]⟩

/-- C4: on a Binary model whose file is cut short inside its triangle records,
a `GetVolume` call fails, leaves the memoisation flag false and the cached
volume untouched; and after any further calls of `SetDensity`, `GetVolume`,
`GetWeight` and `Close`, every `GetVolume` call fails again in the same way. -/
theorem truncated_GetVolume_caches_nothing (c : STLCalc) (f : File)
    (hb : c.bBinary = true) (hf : c.flag = false) (hc : c.fstlHandle = some f)
    (h84 : 84 ≤ f.data.length) (h : f.data.length < 84 + 50 * declaredCount f.data)
    (xs : List Call) (u : String) :
    (∃ e, (GetVolume (applyCalls c xs) u).1 = (0, some e)) ∧
    (GetVolume (applyCalls c xs) u).2.flag = false ∧
    (GetVolume (applyCalls c xs) u).2.volume = c.volume := by
  obtain ⟨f1, h1, h2, h3, h4, h5⟩ := applyCalls_truncated f.data h84 h xs c f hb hf hc rfl
  obtain ⟨e, f2, g0, _, g2, g3, _, _⟩ :=
    GetVolume_truncated (applyCalls c xs) f1 u h1 h2 h3 (by rw [h4]; exact h84)
      (by rw [h4]; exact h)
  exact ⟨⟨e, g0⟩, g2, by rw [g3, h5]⟩

theorem truncated_GetVolume_caches_nothing_witness :
    (∃ e, (GetVolume (applyCalls (binaryModel truncatedFile "t.stl")
        [Call.getVolume "cm", Call.getWeight, Call.getVolume "in"]) "cm").1 = (0, some e)) ∧
    (GetVolume (applyCalls (binaryModel truncatedFile "t.stl")
        [Call.getVolume "cm", Call.getWeight, Call.getVolume "in"]) "cm").2.flag = false ∧
    (GetVolume (applyCalls (binaryModel truncatedFile "t.stl")
        [Call.getVolume "cm", Call.getWeight, Call.getVolume "in"]) "cm").2.volume
      = (binaryModel truncatedFile "t.stl").volume :=
  truncated_GetVolume_caches_nothing (binaryModel truncatedFile "t.stl")
    ⟨truncatedFile, 0, false, 0⟩ rfl rfl rfl (by decide) (by decide)
    [Call.getVolume "cm", Call.getWeight, Call.getVolume "in"] "cm"

/-- C5: after a successful `GetVolume(u)`, a second `GetVolume(u)` returns the
same value and leaves the whole model as it was (cached volume, flag, triangle
count, and the handle with its position and its count of seek and read
requests): the file is not touched again. -/
theorem GetVolume_idempotent (c : STLCalc) (u : String) (h : (GetVolume c u).1.2 = none) :
    GetVolume (GetVolume c u).2 u = ((GetVolume c u).1, (GetVolume c u).2) := by
  obtain ⟨hflag, hval⟩ := GetVolume_ok_flag c u h
  rw [GetVolume_of_flag _ u hflag, hval]

theorem GetVolume_idempotent_witness :
    GetVolume (GetVolume (binaryModel emptyMesh "e.stl") "cm").2 "cm"
      = ((GetVolume (binaryModel emptyMesh "e.stl") "cm").1,
         (GetVolume (binaryModel emptyMesh "e.stl") "cm").2) :=
  GetVolume_idempotent (binaryModel emptyMesh "e.stl") "cm"
    (by rw [GetVolume_binary_ok (binaryModel emptyMesh "e.stl") emptyMesh 0 0 "cm" rfl rfl rfl
      (by decide)])

/-- C6: with a cached volume `v` (mm3), `GetVolume("cm")` is `v / 1000` and
`GetVolume(u)` for any other `u` is `(v / 1000) * 0.0610237441`, never an
error; for `v = 1000000` these are `1000` and `61.0237441`. -/
theorem GetVolume_unit_conversion (c : STLCalc) (hf : c.flag = true) :
    GetVolume c "cm" = ((c.volume / 1000, none), c) ∧
    (∀ u : String, u ≠ "cm" → GetVolume c u = ((c.volume / 1000 * 0.0610237441, none), c)) ∧
    (∀ u : String, (GetVolume c u).1.2 = none) ∧
    (c.volume = 1000000 →
      (GetVolume c "cm").1 = (1000, none) ∧
      ∀ u : String, u ≠ "cm" → (GetVolume c u).1 = (61.0237441, none)) := by
  have hcm : GetVolume c "cm" = ((c.volume / 1000, none), c) := by
    rw [GetVolume_of_flag c "cm" hf, if_pos rfl]
  have hin : ∀ u : String, u ≠ "cm" →
      GetVolume c u = ((c.volume / 1000 * 0.0610237441, none), c) := by
    intro u hu
    rw [GetVolume_of_flag c u hf, if_neg hu]
  refine ⟨hcm, hin, ?_, ?_⟩
  · intro u
    rw [GetVolume_of_flag c u hf]
  · intro hv
    refine ⟨?_, ?_⟩
    · rw [hcm, hv]
      norm_num
    · intro u hu
      rw [hin u hu, hv]
      norm_num

theorem GetVolume_unit_conversion_witness :
    GetVolume { asciiModel with volume := 1000000, flag := true } "cm"
      = (((1000000 : ℚ) / 1000, none), { asciiModel with volume := 1000000, flag := true }) :=
  (GetVolume_unit_conversion { asciiModel with volume := 1000000, flag := true } rfl).1

/-- C10: on a file classified Ascii, `GetVolume` returns exactly 0 and no error
for every unit, `GetWeight` returns 0 and no error whatever the density, and
no handle exists to read from: the triangle count stays 0. -/
theorem ascii_GetVolume_zero (fs : FileSystem) (path : String) (c : STLCalc)
    (hnew : NewSTLCalc fs path = (some c, none)) (hb : c.bBinary = false) (u : String) :
    (GetVolume c u).1 = (0, none) ∧ (GetWeight c).1 = (0, none) ∧
    (∀ d : Float64, (GetWeight (SetDensity c d)).1 = (0, none)) ∧
    (GetVolume c u).2.fstlHandle = none ∧ (GetWeight c).2.fstlHandle = none ∧
    (GetVolume c u).2.trianglesCount = 0 := by
  have hc := NewSTLCalc_ascii fs path c hnew hb
  subst hc
  refine ⟨?_, ?_, ?_, ?_, ?_, ?_⟩
  · by_cases hu : u = "cm" <;> simp [GetVolume, calculateVolume, inch3, hu]
  · simp [GetWeight, GetVolume, calculateVolume, calculateWeight]
  · intro d
    simp [GetWeight, GetVolume, calculateVolume, calculateWeight, SetDensity]
  · by_cases hu : u = "cm" <;> simp [GetVolume, calculateVolume, inch3, hu]
  · simp [GetWeight, GetVolume, calculateVolume, calculateWeight]
  · by_cases hu : u = "cm" <;> simp [GetVolume, calculateVolume, inch3, hu]

set_option maxRecDepth 100000 in
theorem ascii_GetVolume_zero_witness :
    (GetVolume asciiModel "cm").1 = (0, none) ∧ (GetWeight asciiModel).1 = (0, none) ∧
    (∀ d : Float64, (GetWeight (SetDensity asciiModel d)).1 = (0, none)) ∧
    (GetVolume asciiModel "cm").2.fstlHandle = none ∧
    (GetWeight asciiModel).2.fstlHandle = none ∧
    (GetVolume asciiModel "cm").2.trianglesCount = 0 :=
  ascii_GetVolume_zero (fun _ => some asciiSample) "a.stl" asciiModel
    (NewSTLCalc_of_isAscii_true _ _ (by decide)) rfl "cm"

/-! ## The density does not enter the volume computation -/

theorem readTriangle_SetDensity (c : STLCalc) (d : Float64) :
    readTriangle (SetDensity c d) = ((readTriangle c).1, SetDensity (readTriangle c).2 d) := by
  simp only [readTriangle, SetDensity]
  rcases binaryReadFloat32x3 c.fstlHandle with ⟨⟨v0, _ | e0⟩, h1⟩
  swap
  · rfl
  dsimp only
  rcases binaryReadFloat32x3 h1 with ⟨⟨v1, _ | e1⟩, h2⟩
  swap
  · rfl
  dsimp only
  rcases binaryReadFloat32x3 h2 with ⟨⟨v2, _ | e2⟩, h3⟩
  swap
  · rfl
  dsimp only
  rcases binaryReadFloat32x3 h3 with ⟨⟨v3, _ | e3⟩, h4⟩
  swap
  · rfl
  dsimp only
  rcases binaryReadUint16 h4 with ⟨⟨a, _ | e4⟩, h5⟩ <;> rfl

theorem readTriangles_SetDensity (n : Nat) : ∀ (total : Float64) (c : STLCalc) (d : Float64),
    readTriangles n total (SetDensity c d)
      = ((readTriangles n total c).1, SetDensity (readTriangles n total c).2 d) := by
  induction n with
  | zero => intro total c d; rfl
  | succ n ih =>
    intro total c d
    simp only [readTriangles, readTriangle_SetDensity]
    rcases readTriangle c with ⟨⟨v, _ | e⟩, c1⟩
    · exact ih _ _ _
    · rfl

theorem readBinaryVolume_SetDensity (c : STLCalc) (d : Float64) :
    readBinaryVolume (SetDensity c d)
      = ((readBinaryVolume c).1, SetDensity (readBinaryVolume c).2 d) := by
  simp only [readBinaryVolume]
  have hh : (SetDensity c d).fstlHandle = c.fstlHandle := rfl
  rw [hh]
  rcases fileSeek c.fstlHandle 80 with ⟨_ | e, h1⟩
  · simp only
    rcases binaryReadUint32 h1 with ⟨⟨n, _ | e1⟩, h2⟩
    · simp only
      have := readTriangles_SetDensity n 0 { c with fstlHandle := h2, trianglesCount := n } d
      simp only [SetDensity] at this ⊢
      rw [this]
      rcases readTriangles n 0 { c with fstlHandle := h2, trianglesCount := n }
        with ⟨⟨v, _ | e2⟩, c1⟩ <;> rfl
    · rfl
  · rfl

theorem GetVolume_SetDensity (c : STLCalc) (d : Float64) (u : String) :
    GetVolume (SetDensity c d) u = ((GetVolume c u).1, SetDensity (GetVolume c u).2 d) := by
  have hcv : calculateVolume (SetDensity c d)
      = ((calculateVolume c).1, SetDensity (calculateVolume c).2 d) := by
    simp only [calculateVolume]
    have hb : (SetDensity c d).bBinary = c.bBinary := rfl
    rw [hb]
    cases c.bBinary
    · rfl
    · simp only [if_true, readBinaryVolume_SetDensity]
  simp only [GetVolume, hcv]
  have hf : (SetDensity c d).flag = c.flag := rfl
  rw [hf]
  cases c.flag
  · simp only [Bool.not_false, if_true]
    rcases calculateVolume c with ⟨⟨v, _ | e⟩, c1⟩
    · simp only [SetDensity, inch3]
      split_ifs <;> rfl
    · rfl
  · simp only [Bool.not_true, Bool.false_eq_true, if_false, SetDensity, inch3]
    split_ifs <;> rfl

theorem GetWeight_SetDensity (c : STLCalc) (v d : Float64)
    (h : (GetVolume c "cm").1 = (v, none)) :
    GetWeight (SetDensity c d) = ((v * d, none), SetDensity (GetVolume c "cm").2 d) := by
  rw [GetWeight, GetVolume_SetDensity, h]
  rfl

theorem GetWeight_exact_doubling (c : STLCalc) (v d : Float64)
    (h : (GetVolume c "cm").1 = (v, none)) :
    (GetWeight (SetDensity c d)).1 = (v * d, none) ∧
    (GetWeight (SetDensity (GetVolume c "cm").2 d)).1 = (v * d, none) ∧
    (GetWeight (SetDensity (GetWeight (SetDensity c d)).2 (2 * d))).1 = (2 * (v * d), none) := by
  have hok : (GetVolume c "cm").1.2 = none := by rw [h]
  have h2 : (GetVolume (GetVolume c "cm").2 "cm").1 = (v, none) := by
    rw [GetVolume_again c "cm" hok, h]
  refine ⟨?_, ?_, ?_⟩
  · rw [GetWeight_SetDensity c v d h]
  · rw [GetWeight_SetDensity _ v d h2]
  · rw [GetWeight_SetDensity c v d h]
    have h3 : (GetVolume (SetDensity (GetVolume c "cm").2 d) "cm").1 = (v, none) := by
      rw [GetVolume_SetDensity, h2]
    rw [GetWeight_SetDensity _ v (2 * d) h3]
    simp only [Prod.mk.injEq, and_true]
    ring

theorem Triangle.encode_length (t : Triangle) (h : t.WellFormed) : t.encode.length = 50 := by
  obtain ⟨h0, h1, h2, h3, h4⟩ := h
  simp only [Triangle.encode, List.length_append, h0, h1, h2, h3, h4]

theorem recordVolume_encode (t : Triangle) (h : t.WellFormed) :
    recordVolume t.encode = t.signedVolume := by
  obtain ⟨h0, h1, h2, h3, h4⟩ := h
  have a1 : t.encode
      = t.normal ++ (t.vertex1 ++ (t.vertex2 ++ (t.vertex3 ++ t.attrByteCount))) := by
    simp only [Triangle.encode, List.append_assoc]
  have a2 : t.encode
      = (t.normal ++ t.vertex1) ++ (t.vertex2 ++ (t.vertex3 ++ t.attrByteCount)) := by
    simp only [Triangle.encode, List.append_assoc]
  have a3 : t.encode
      = (t.normal ++ t.vertex1 ++ t.vertex2) ++ (t.vertex3 ++ t.attrByteCount) := by
    simp only [Triangle.encode, List.append_assoc]
  have l2 : (t.normal ++ t.vertex1).length = 24 := by
    simp only [List.length_append, h0, h1]
  have l3 : (t.normal ++ t.vertex1 ++ t.vertex2).length = 36 := by
    simp only [List.length_append, h0, h1, h2]
  have e1 : (t.encode.drop 12).take 12 = t.vertex1 := by
    rw [a1, List.drop_left' h0, List.take_left' h1]
  have e2 : (t.encode.drop 24).take 12 = t.vertex2 := by
    rw [a2, List.drop_left' l2, List.take_left' h2]
  have e3 : (t.encode.drop 36).take 12 = t.vertex3 := by
    rw [a3, List.drop_left' l3, List.take_left' h3]
  rw [recordVolume, e1, e2, e3, Triangle.signedVolume]

theorem stlBody_length (ts : List Triangle) (rest : List Byte) (h : ∀ t ∈ ts, t.WellFormed) :
    (stlBody ts rest).length = 50 * ts.length + rest.length := by
  induction ts with
  | nil => simp [stlBody]
  | cons t ts ih =>
    have ht := Triangle.encode_length t (h t (List.mem_cons_self _ _))
    have := ih (fun t' ht' => h t' (List.mem_cons_of_mem _ ht'))
    simp only [stlBody, List.foldr_cons, List.length_append, List.length_cons] at this ⊢
    rw [this, ht]
    ring

theorem records_stlBody (ts : List Triangle) (rest : List Byte) (h : ∀ t ∈ ts, t.WellFormed) :
    records (stlBody ts rest) ts.length = ts.map Triangle.encode := by
  induction ts with
  | nil => rfl
  | cons t ts ih =>
    have ht := Triangle.encode_length t (h t (List.mem_cons_self _ _))
    have := ih (fun t' ht' => h t' (List.mem_cons_of_mem _ ht'))
    have hb : stlBody (t :: ts) rest = t.encode ++ stlBody ts rest := rfl
    rw [List.length_cons, records, hb, List.map_cons, List.take_left' ht, List.drop_left' ht,
      this]

theorem leUint_uint32Bytes (n : Nat) (h : n < 2 ^ 32) : leUint (uint32Bytes n) = n := by
  simp only [leUint, uint32Bytes, List.foldr_cons, List.foldr_nil, Fin.ofNat, Nat.reduceAdd]
  omega

theorem declaredCount_binarySTL (header : List Byte) (ts : List Triangle) (rest : List Byte)
    (hh : header.length = 80) (hn : ts.length < 2 ^ 32) :
    declaredCount (binarySTL header ts rest) = ts.length := by
  have hu : (uint32Bytes ts.length).length = 4 := rfl
  rw [declaredCount, binarySTL, List.append_assoc, List.drop_left' hh, List.take_left' hu,
    leUint_uint32Bytes _ hn]

theorem drop84_binarySTL (header : List Byte) (ts : List Triangle) (rest : List Byte)
    (hh : header.length = 80) :
    (binarySTL header ts rest).drop 84 = stlBody ts rest := by
  have hu : (header ++ uint32Bytes ts.length).length = 84 := by
    rw [List.length_append, hh]; rfl
  rw [binarySTL, List.drop_left' hu]

theorem binarySTL_length (header : List Byte) (ts : List Triangle) (rest : List Byte)
    (hh : header.length = 80) (h : ∀ t ∈ ts, t.WellFormed) :
    (binarySTL header ts rest).length = 84 + 50 * ts.length + rest.length := by
  have hu : (uint32Bytes ts.length).length = 4 := rfl
  rw [binarySTL, List.length_append, List.length_append, hh, hu, stlBody_length ts rest h]
  ring

theorem fileVolume_binarySTL (header : List Byte) (ts : List Triangle) (rest : List Byte)
    (hh : header.length = 80) (hn : ts.length < 2 ^ 32) (h : ∀ t ∈ ts, t.WellFormed) :
    fileVolume (binarySTL header ts rest) = |(ts.map Triangle.signedVolume).sum| := by
  rw [fileVolume, declaredCount_binarySTL header ts rest hh hn, drop84_binarySTL header ts rest hh,
    records_stlBody ts rest h, List.map_map]
  congr 2
  refine List.map_congr_left (fun t ht => ?_)
  exact recordVolume_encode t (h t ht)

theorem readBinaryVolume_binarySTL (c : STLCalc) (header : List Byte) (ts : List Triangle)
    (rest : List Byte) (p k : Nat) (hh : header.length = 80) (hn : ts.length < 2 ^ 32)
    (h : ∀ t ∈ ts, t.WellFormed)
    (hc : c.fstlHandle = some ⟨binarySTL header ts rest, p, false, k⟩) :
    (readBinaryVolume c).1 = (|(ts.map Triangle.signedVolume).sum|, none) := by
  have hd := declaredCount_binarySTL header ts rest hh hn
  have hl := binarySTL_length header ts rest hh h
  rw [readBinaryVolume_ok c _ p k hc (by rw [hd, hl]; omega)]
  exact congrArg (fun v => (v, none)) (fileVolume_binarySTL header ts rest hh hn h)

theorem decodeFloat32x3_append (a b c : List Byte) (ha : a.length = 4) (hb : b.length = 4)
    (hc : c.length = 4) :
    decodeFloat32x3 (a ++ b ++ c) 0 = float32OfBytes a ∧
    decodeFloat32x3 (a ++ b ++ c) 1 = float32OfBytes b ∧
    decodeFloat32x3 (a ++ b ++ c) 2 = float32OfBytes c := by
  have hab : (a ++ b).length = 8 := by rw [List.length_append, ha, hb]
  refine ⟨?_, ?_, ?_⟩
  · show float32frombits (leUint (((a ++ b ++ c).drop 0).take 4)) = _
    rw [List.drop_zero, List.append_assoc, List.take_left' ha]
    rfl
  · show float32frombits (leUint (((a ++ b ++ c).drop 4).take 4)) = _
    rw [List.append_assoc, List.drop_left' ha, List.take_left' hb]
    rfl
  · show float32frombits (leUint (((a ++ b ++ c).drop 8).take 4)) = _
    rw [List.drop_left' hab, List.take_of_length_le (by omega)]
    rfl

theorem corner_decode (lo hi : Fin 3 → List Byte) (hlo : ∀ i, (lo i).length = 4)
    (hhi : ∀ i, (hi i).length = 4) (b : Bool × Bool × Bool) :
    decodeFloat32x3 (corner lo hi b) 0 = float32OfBytes (if b.1 then hi 0 else lo 0) ∧
    decodeFloat32x3 (corner lo hi b) 1 = float32OfBytes (if b.2.1 then hi 1 else lo 1) ∧
    decodeFloat32x3 (corner lo hi b) 2 = float32OfBytes (if b.2.2 then hi 2 else lo 2) := by
  apply decodeFloat32x3_append
  · split_ifs
    · exact hhi 0
    · exact hlo 0
  · split_ifs
    · exact hhi 1
    · exact hlo 1
  · split_ifs
    · exact hhi 2
    · exact hlo 2

theorem cubeTriangles_sum (lo hi : Fin 3 → List Byte) (inward : Bool) (nrm attr : Nat → List Byte)
    (hlo : ∀ i, (lo i).length = 4) (hhi : ∀ i, (hi i).length = 4) :
    ((cubeTriangles lo hi inward nrm attr).map Triangle.signedVolume).sum
      = (if inward then -1 else 1) *
        ((float32OfBytes (hi 0) - float32OfBytes (lo 0)) *
         (float32OfBytes (hi 1) - float32OfBytes (lo 1)) *
         (float32OfBytes (hi 2) - float32OfBytes (lo 2))) := by
  have hc := corner_decode lo hi hlo hhi
  cases inward
  · simp only [cubeTriangles, cubeFaces, List.enum, List.enumFrom, List.map_cons, List.map_nil,
      List.sum_cons, List.sum_nil, Triangle.signedVolume, signedVolumeOfTriangle, hc,
      Bool.false_eq_true, if_false, if_true]
    ring
  · simp only [cubeTriangles, cubeFaces, List.enum, List.enumFrom, List.map_cons, List.map_nil,
      List.sum_cons, List.sum_nil, Triangle.signedVolume, signedVolumeOfTriangle, hc,
      Bool.false_eq_true, if_false, if_true]
    ring

theorem cubeTriangles_wellFormed (lo hi : Fin 3 → List Byte) (inward : Bool)
    (nrm attr : Nat → List Byte)
    (hlo : ∀ i, (lo i).length = 4) (hhi : ∀ i, (hi i).length = 4)
    (hn : ∀ i, (nrm i).length = 12) (ha : ∀ i, (attr i).length = 2) :
    ∀ t ∈ cubeTriangles lo hi inward nrm attr, t.WellFormed := by
  have hcl : ∀ b, (corner lo hi b).length = 12 := by
    intro b
    simp only [corner, List.length_append]
    have h0 : (if b.1 then hi 0 else lo 0).length = 4 := by
      split_ifs
      · exact hhi 0
      · exact hlo 0
    have h1 : (if b.2.1 then hi 1 else lo 1).length = 4 := by
      split_ifs
      · exact hhi 1
      · exact hlo 1
    have h2 : (if b.2.2 then hi 2 else lo 2).length = 4 := by
      split_ifs
      · exact hhi 2
      · exact hlo 2
    rw [h0, h1, h2]
  intro t ht
  simp only [cubeTriangles, List.mem_map] at ht
  obtain ⟨x, _, rfl⟩ := ht
  cases inward
  · exact ⟨hn _, hcl _, hcl _, hcl _, ha _⟩
  · exact ⟨hn _, hcl _, hcl _, hcl _, ha _⟩

theorem cubeTriangles_length (lo hi : Fin 3 → List Byte) (inward : Bool)
    (nrm attr : Nat → List Byte) : (cubeTriangles lo hi inward nrm attr).length = 12 := by
  simp [cubeTriangles, cubeFaces]

/-- C2 (as amended): with the sums and products of the volume computation
taken in exact arithmetic, a binary STL file whose twelve records are the faces
of an axis-aligned cube of edge 10, wound consistently (all outward or all
inward), whatever its position, header, normals, attribute bytes and trailing
bytes, gives: the cached volume is 1000 mm3, `GetVolume("cm")` returns 1 and,
with the default density, `GetWeight()` returns 1.04. -/
theorem cube_volume_and_weight (fs : FileSystem) (path : String) (c : STLCalc)
    (header rest : List Byte) (lo hi : Fin 3 → List Byte) (inward : Bool)
    (nrm attr : Nat → List Byte)
    (hfs : fs path = some (binarySTL header (cubeTriangles lo hi inward nrm attr) rest))
    (hnew : NewSTLCalc fs path = (some c, none)) (hb : c.bBinary = true)
    (hh : header.length = 80)
    (hlo : ∀ i, (lo i).length = 4) (hhi : ∀ i, (hi i).length = 4)
    (hn : ∀ i, (nrm i).length = 12) (ha : ∀ i, (attr i).length = 2)
    (hedge : ∀ i, float32OfBytes (hi i) - float32OfBytes (lo i) = 10) :
    (GetVolume c "cm").2.volume = 1000 ∧ (GetVolume c "cm").1 = (1, none) ∧
    (GetWeight c).1 = (1.04, none) := by
  have hc := NewSTLCalc_binary fs path _ c hfs hnew hb
  have hwf := cubeTriangles_wellFormed lo hi inward nrm attr hlo hhi hn ha
  have hlen := cubeTriangles_length lo hi inward nrm attr
  have hvol : fileVolume (binarySTL header (cubeTriangles lo hi inward nrm attr) rest) = 1000 := by
    rw [fileVolume_binarySTL header _ rest hh (by rw [hlen]; decide) hwf,
      cubeTriangles_sum lo hi inward nrm attr hlo hhi, hedge 0, hedge 1, hedge 2]
    cases inward <;> norm_num
  have hd := declaredCount_binarySTL header (cubeTriangles lo hi inward nrm attr) rest hh
    (by rw [hlen]; decide)
  have hl := binarySTL_length header (cubeTriangles lo hi inward nrm attr) rest hh hwf
  have hg := GetVolume_binary_ok c _ 0 0 "cm" hb (by rw [hc]) (by rw [hc])
    (show 84 + 50 * declaredCount (binarySTL header (cubeTriangles lo hi inward nrm attr) rest)
      ≤ (binarySTL header (cubeTriangles lo hi inward nrm attr) rest).length by
        rw [hd, hl]; omega)
  rw [hvol] at hg
  have hdens : c.density = 1.04 := by rw [hc]
  refine ⟨?_, ?_, ?_⟩
  · rw [hg]
  · rw [hg]
    norm_num
  · rw [GetWeight, hg]
    simp only [calculateWeight, hdens]
    norm_num

set_option maxRecDepth 100000 in
theorem cube_volume_and_weight_witness :
    (GetVolume (binaryModel cubeFile "cube.stl") "cm").2.volume = 1000 ∧
    (GetVolume (binaryModel cubeFile "cube.stl") "cm").1 = (1, none) ∧
    (GetWeight (binaryModel cubeFile "cube.stl")).1 = (1.04, none) :=
  cube_volume_and_weight (fun _ => some cubeFile) "cube.stl" (binaryModel cubeFile "cube.stl")
    (List.replicate 80 0) [] (fun _ => zeroBytes) (fun _ => tenBytes) false
    (fun _ => List.replicate 12 0) (fun _ => [0, 0]) rfl
    (NewSTLCalc_of_isAscii_false _ _ cubeFile rfl (by decide)) rfl rfl
    (fun _ => rfl) (fun _ => rfl) (fun _ => rfl) (fun _ => rfl)
    (fun _ => by
      have h10 : leUint tenBytes = 1092616192 := by decide
      have h0 : leUint zeroBytes = 0 := by decide
      rw [float32OfBytes, float32OfBytes, h10, h0]
      norm_num [float32frombits])

theorem Triangle.swap_signedVolume (t : Triangle) (k : Fin 3) :
    (t.swap k).signedVolume = -t.signedVolume := by
  fin_cases k <;>
    simp only [Triangle.swap, Triangle.signedVolume, signedVolumeOfTriangle] <;> ring

theorem Triangle.swap_wellFormed (t : Triangle) (k : Fin 3) (h : t.WellFormed) :
    (t.swap k).WellFormed := by
  obtain ⟨h0, h1, h2, h3, h4⟩ := h
  fin_cases k
  · exact ⟨h0, h2, h1, h3, h4⟩
  · exact ⟨h0, h1, h3, h2, h4⟩
  · exact ⟨h0, h3, h2, h1, h4⟩

theorem sum_swap_signedVolume (κ : Triangle → Fin 3) (ts : List Triangle) :
    ((ts.map fun t => t.swap (κ t)).map Triangle.signedVolume).sum
      = -(ts.map Triangle.signedVolume).sum := by
  induction ts with
  | nil => simp
  | cons t ts ih =>
    simp only [List.map_cons, List.sum_cons, Triangle.swap_signedVolume] at ih ⊢
    rw [ih]
    ring

/-- C8 (as amended): with the signed volumes and their sum taken in exact
arithmetic, on a file made of any list of triangles `readBinaryVolume` returns
the absolute value of the sum of their signed volumes, and exchanging two
vertices in every record (any two, chosen record by record) gives a file on
which it returns the same volume. -/
theorem readBinaryVolume_abs_winding (c c1 : STLCalc) (header rest : List Byte)
    (ts : List Triangle) (κ : Triangle → Fin 3) (p k p1 k1 : Nat)
    (hh : header.length = 80) (hn : ts.length < 2 ^ 32) (hwf : ∀ t ∈ ts, t.WellFormed)
    (hc : c.fstlHandle = some ⟨binarySTL header ts rest, p, false, k⟩)
    (hc1 : c1.fstlHandle
      = some ⟨binarySTL header (ts.map fun t => t.swap (κ t)) rest, p1, false, k1⟩) :
    (readBinaryVolume c).1 = (|(ts.map Triangle.signedVolume).sum|, none) ∧
    (readBinaryVolume c1).1 = (readBinaryVolume c).1 := by
  have h1 := readBinaryVolume_binarySTL c header ts rest p k hh hn hwf hc
  have hwf1 : ∀ t ∈ ts.map (fun t => t.swap (κ t)), t.WellFormed := by
    intro t ht
    obtain ⟨t0, ht0, rfl⟩ := List.mem_map.mp ht
    exact Triangle.swap_wellFormed t0 (κ t0) (hwf t0 ht0)
  have h2 := readBinaryVolume_binarySTL c1 header _ rest p1 k1 hh
    (by rw [List.length_map]; exact hn) hwf1 hc1
  refine ⟨h1, ?_⟩
  rw [h1, h2, sum_swap_signedVolume, abs_neg]

/-- C9: on two files whose triangle records are a permutation of one another,
`readBinaryVolume` returns the same volume. -/
theorem readBinaryVolume_perm (c c1 : STLCalc) (header rest : List Byte)
    (ts ts1 : List Triangle) (p k p1 k1 : Nat)
    (hh : header.length = 80) (hn : ts.length < 2 ^ 32) (hwf : ∀ t ∈ ts, t.WellFormed)
    (hperm : ts.Perm ts1)
    (hc : c.fstlHandle = some ⟨binarySTL header ts rest, p, false, k⟩)
    (hc1 : c1.fstlHandle = some ⟨binarySTL header ts1 rest, p1, false, k1⟩) :
    (readBinaryVolume c1).1 = (readBinaryVolume c).1 ∧
    (readBinaryVolume c).1 = (|(ts.map Triangle.signedVolume).sum|, none) := by
  have h1 := readBinaryVolume_binarySTL c header ts rest p k hh hn hwf hc
  have hwf1 : ∀ t ∈ ts1, t.WellFormed := fun t ht => hwf t (hperm.mem_iff.mpr ht)
  have h2 := readBinaryVolume_binarySTL c1 header ts1 rest p1 k1 hh
    (by rw [← hperm.length_eq]; exact hn) hwf1 hc1
  refine ⟨?_, h1⟩
  rw [h1, h2, (hperm.map Triangle.signedVolume).sum_eq]

theorem sampleTriangles_wellFormed : ∀ t ∈ sampleTriangles, t.WellFormed :=
  cubeTriangles_wellFormed _ _ _ _ _ (fun _ => rfl) (fun _ => rfl) (fun _ => rfl) (fun _ => rfl)

theorem readBinaryVolume_abs_winding_witness :
    (readBinaryVolume (binaryModel (binarySTL (List.replicate 80 0) sampleTriangles []) "a.stl")).1
      = (|(sampleTriangles.map Triangle.signedVolume).sum|, none) ∧
    (readBinaryVolume (binaryModel (binarySTL (List.replicate 80 0)
        (sampleTriangles.map fun t => t.swap 0) []) "b.stl")).1
      = (readBinaryVolume
          (binaryModel (binarySTL (List.replicate 80 0) sampleTriangles []) "a.stl")).1 :=
  readBinaryVolume_abs_winding _ _ (List.replicate 80 0) [] sampleTriangles (fun _ => 0) 0 0 0 0
    rfl (by decide) sampleTriangles_wellFormed rfl rfl

theorem readBinaryVolume_perm_witness :
    (readBinaryVolume (binaryModel (binarySTL (List.replicate 80 0)
        sampleTriangles.reverse []) "b.stl")).1
      = (readBinaryVolume
          (binaryModel (binarySTL (List.replicate 80 0) sampleTriangles []) "a.stl")).1 ∧
    (readBinaryVolume (binaryModel (binarySTL (List.replicate 80 0) sampleTriangles []) "a.stl")).1
      = (|(sampleTriangles.map Triangle.signedVolume).sum|, none) :=
  readBinaryVolume_perm _ _ (List.replicate 80 0) [] sampleTriangles sampleTriangles.reverse
    0 0 0 0 rfl (by decide) sampleTriangles_wellFormed (List.reverse_perm sampleTriangles).symm
    rfl rfl

/-! ## Algebra of the signed volume -/

/-- C18 (as amended): with its products and sums taken in exact arithmetic,
the signed volume is unchanged by a cyclic rotation of the three vertices,
changes sign when any two of them are exchanged, and is zero when two of them
coincide. -/
theorem signedVolumeOfTriangle_symmetry (p1 p2 p3 : Fin 3 → Float32) :
    signedVolumeOfTriangle p1 p2 p3 = signedVolumeOfTriangle p2 p3 p1 ∧
    signedVolumeOfTriangle p1 p2 p3 = signedVolumeOfTriangle p3 p1 p2 ∧
    signedVolumeOfTriangle p2 p1 p3 = -signedVolumeOfTriangle p1 p2 p3 ∧
    signedVolumeOfTriangle p1 p3 p2 = -signedVolumeOfTriangle p1 p2 p3 ∧
    signedVolumeOfTriangle p3 p2 p1 = -signedVolumeOfTriangle p1 p2 p3 ∧
    signedVolumeOfTriangle p1 p1 p3 = 0 ∧
    signedVolumeOfTriangle p1 p2 p2 = 0 ∧
    signedVolumeOfTriangle p1 p2 p1 = 0 := by
  simp only [signedVolumeOfTriangle]
  refine ⟨?_, ?_, ?_, ?_, ?_, ?_, ?_, ?_⟩ <;> ring

theorem tetra_faces_sum (a b c d : Fin 3 → Float32) :
    signedVolumeOfTriangle b c d + signedVolumeOfTriangle a d c +
      signedVolumeOfTriangle a b d + signedVolumeOfTriangle a c b
      = (1 / 6) * (Matrix.of ![b - a, c - a, d - a]).det := by
  rw [Matrix.det_fin_three]
  simp only [signedVolumeOfTriangle, Matrix.of_apply, Matrix.cons_val_zero,
    Matrix.cons_val_one, Matrix.cons_val_two, Matrix.head_cons, Matrix.tail_cons,
    Pi.sub_apply]
  ring

theorem tetra_det_translate (a b c d t : Fin 3 → Float32) :
    (Matrix.of ![(b + t) - (a + t), (c + t) - (a + t), (d + t) - (a + t)]).det
      = (Matrix.of ![b - a, c - a, d - a]).det := by
  have e1 : (b + t) - (a + t) = b - a := by abel
  have e2 : (c + t) - (a + t) = c - a := by abel
  have e3 : (d + t) - (a + t) = d - a := by abel
  rw [e1, e2, e3]

theorem tetraTriangles_sum (va vb vc vd : List Byte) (inward : Bool)
    (nrm attr : Nat → List Byte) :
    ((tetraTriangles va vb vc vd inward nrm attr).map Triangle.signedVolume).sum
      = (if inward then -1 else 1) * ((1 / 6) *
          (Matrix.of ![decodeFloat32x3 vb - decodeFloat32x3 va,
            decodeFloat32x3 vc - decodeFloat32x3 va,
            decodeFloat32x3 vd - decodeFloat32x3 va]).det) := by
  rw [← tetra_faces_sum]
  cases inward
  · simp only [tetraTriangles, Bool.false_eq_true, if_false, List.map_cons, List.map_nil,
      List.sum_cons, List.sum_nil, Triangle.signedVolume, signedVolumeOfTriangle]
    ring
  · simp only [tetraTriangles, if_true, List.map_cons, List.map_nil,
      List.sum_cons, List.sum_nil, Triangle.signedVolume, signedVolumeOfTriangle]
    ring

theorem tetraTriangles_wellFormed (va vb vc vd : List Byte) (inward : Bool)
    (nrm attr : Nat → List Byte)
    (ha : va.length = 12) (hb : vb.length = 12) (hc : vc.length = 12) (hd : vd.length = 12)
    (hn : ∀ i, (nrm i).length = 12) (hat : ∀ i, (attr i).length = 2) :
    ∀ t ∈ tetraTriangles va vb vc vd inward nrm attr, t.WellFormed := by
  intro t ht
  cases inward <;>
    simp only [tetraTriangles, Bool.false_eq_true, if_false, if_true, List.mem_cons,
      List.mem_singleton, List.not_mem_nil, or_false] at ht <;>
    rcases ht with rfl | rfl | rfl | rfl <;>
    exact ⟨hn _, by assumption, by assumption, by assumption, hat _⟩

theorem tetraTriangles_length (va vb vc vd : List Byte) (inward : Bool)
    (nrm attr : Nat → List Byte) : (tetraTriangles va vb vc vd inward nrm attr).length = 4 := by
  cases inward <;> rfl

theorem float32OfBytes_zeroBytes : float32OfBytes zeroBytes = 0 := by
  have h : leUint zeroBytes = 0 := by decide
  rw [float32OfBytes, h]
  norm_num [float32frombits]

theorem float32OfBytes_tenBytes : float32OfBytes tenBytes = 10 := by
  have h : leUint tenBytes = 1092616192 := by decide
  rw [float32OfBytes, h]
  norm_num [float32frombits]

theorem float32OfBytes_twentyBytes : float32OfBytes twentyBytes = 20 := by
  have h : leUint twentyBytes = 1101004800 := by decide
  rw [float32OfBytes, h]
  norm_num [float32frombits]

theorem decodeFloat32x3_eq (x y z : List Byte) (hx : x.length = 4) (hy : y.length = 4)
    (hz : z.length = 4) :
    decodeFloat32x3 (x ++ y ++ z) = ![float32OfBytes x, float32OfBytes y, float32OfBytes z] := by
  obtain ⟨h0, h1, h2⟩ := decodeFloat32x3_append x y z hx hy hz
  funext i
  fin_cases i
  · exact h0
  · exact h1
  · exact h2

theorem decodeFloat32x3_shift (x y z x1 y1 z1 : List Byte)
    (hx : x.length = 4) (hy : y.length = 4) (hz : z.length = 4)
    (hx1 : x1.length = 4) (hy1 : y1.length = 4) (hz1 : z1.length = 4) (t : Fin 3 → Float32)
    (h0 : float32OfBytes x1 = float32OfBytes x + t 0)
    (h1 : float32OfBytes y1 = float32OfBytes y + t 1)
    (h2 : float32OfBytes z1 = float32OfBytes z + t 2) :
    decodeFloat32x3 (x1 ++ y1 ++ z1) = decodeFloat32x3 (x ++ y ++ z) + t := by
  rw [decodeFloat32x3_eq x y z hx hy hz, decodeFloat32x3_eq x1 y1 z1 hx1 hy1 hz1]
  funext i
  fin_cases i
  · exact h0
  · exact h1
  · exact h2

/-- C16: the signed volumes of the four consistently wound faces of a
tetrahedron `a b c d` add up to `det(b - a, c - a, d - a) / 6`, and to its
opposite when every face is reversed; on a file holding these four faces
`readBinaryVolume` returns the absolute value of that, and returns the same
on the file of the tetrahedron translated by any vector `t`. -/
theorem tetrahedron_volume (c c1 : STLCalc) (header rest : List Byte)
    (va vb vc vd va1 vb1 vc1 vd1 : List Byte) (t : Fin 3 → Float32) (inward : Bool)
    (nrm attr : Nat → List Byte) (p k p1 k1 : Nat)
    (hh : header.length = 80)
    (ha : va.length = 12) (hb : vb.length = 12) (hvc : vc.length = 12) (hd : vd.length = 12)
    (ha1 : va1.length = 12) (hb1 : vb1.length = 12) (hvc1 : vc1.length = 12)
    (hd1 : vd1.length = 12)
    (hn : ∀ i, (nrm i).length = 12) (hat : ∀ i, (attr i).length = 2)
    (hta : decodeFloat32x3 va1 = decodeFloat32x3 va + t)
    (htb : decodeFloat32x3 vb1 = decodeFloat32x3 vb + t)
    (htc : decodeFloat32x3 vc1 = decodeFloat32x3 vc + t)
    (htd : decodeFloat32x3 vd1 = decodeFloat32x3 vd + t)
    (hc : c.fstlHandle
      = some ⟨binarySTL header (tetraTriangles va vb vc vd inward nrm attr) rest, p, false, k⟩)
    (hc1 : c1.fstlHandle
      = some ⟨binarySTL header (tetraTriangles va1 vb1 vc1 vd1 inward nrm attr) rest,
          p1, false, k1⟩) :
    (signedVolumeOfTriangle (decodeFloat32x3 vb) (decodeFloat32x3 vc) (decodeFloat32x3 vd) +
        signedVolumeOfTriangle (decodeFloat32x3 va) (decodeFloat32x3 vd) (decodeFloat32x3 vc) +
        signedVolumeOfTriangle (decodeFloat32x3 va) (decodeFloat32x3 vb) (decodeFloat32x3 vd) +
        signedVolumeOfTriangle (decodeFloat32x3 va) (decodeFloat32x3 vc) (decodeFloat32x3 vb)
      = (1 / 6) * (Matrix.of ![decodeFloat32x3 vb - decodeFloat32x3 va,
          decodeFloat32x3 vc - decodeFloat32x3 va, decodeFloat32x3 vd - decodeFloat32x3 va]).det) ∧
    ((tetraTriangles va vb vc vd inward nrm attr).map Triangle.signedVolume).sum
      = (if inward then -1 else 1) * ((1 / 6) *
          (Matrix.of ![decodeFloat32x3 vb - decodeFloat32x3 va,
            decodeFloat32x3 vc - decodeFloat32x3 va,
            decodeFloat32x3 vd - decodeFloat32x3 va]).det) ∧
    (readBinaryVolume c).1
      = (|(1 / 6) * (Matrix.of ![decodeFloat32x3 vb - decodeFloat32x3 va,
            decodeFloat32x3 vc - decodeFloat32x3 va,
            decodeFloat32x3 vd - decodeFloat32x3 va]).det|, none) ∧
    (readBinaryVolume c1).1 = (readBinaryVolume c).1 := by
  have hsum := tetraTriangles_sum va vb vc vd inward nrm attr
  have hsum1 := tetraTriangles_sum va1 vb1 vc1 vd1 inward nrm attr
  rw [hta, htb, htc, htd, tetra_det_translate] at hsum1
  have hr := readBinaryVolume_binarySTL c header _ rest p k hh
    (by rw [tetraTriangles_length]; decide)
    (tetraTriangles_wellFormed va vb vc vd inward nrm attr ha hb hvc hd hn hat) hc
  have hr1 := readBinaryVolume_binarySTL c1 header _ rest p1 k1 hh
    (by rw [tetraTriangles_length]; decide)
    (tetraTriangles_wellFormed va1 vb1 vc1 vd1 inward nrm attr ha1 hb1 hvc1 hd1 hn hat) hc1
  have habs : ∀ x : ℚ, |(if inward then -1 else 1) * x| = |x| := by
    intro x
    cases inward
    · simp
    · simp
  rw [hsum, habs] at hr
  rw [hsum1, habs] at hr1
  exact ⟨tetra_faces_sum _ _ _ _, hsum, hr, by rw [hr1, hr]⟩

theorem tetrahedron_volume_witness :
    (readBinaryVolume (binaryModel (binarySTL (List.replicate 80 0)
        (tetraTriangles (tenBytes ++ tenBytes ++ tenBytes) (twentyBytes ++ tenBytes ++ tenBytes)
          (tenBytes ++ twentyBytes ++ tenBytes) (tenBytes ++ tenBytes ++ twentyBytes) false
          (fun _ => List.replicate 12 0) (fun _ => [0, 0])) []) "b.stl")).1
      = (readBinaryVolume (binaryModel (binarySTL (List.replicate 80 0)
        (tetraTriangles (zeroBytes ++ zeroBytes ++ zeroBytes) (tenBytes ++ zeroBytes ++ zeroBytes)
          (zeroBytes ++ tenBytes ++ zeroBytes) (zeroBytes ++ zeroBytes ++ tenBytes) false
          (fun _ => List.replicate 12 0) (fun _ => [0, 0])) []) "a.stl")).1 :=
  (tetrahedron_volume _ _ (List.replicate 80 0) []
    (zeroBytes ++ zeroBytes ++ zeroBytes) (tenBytes ++ zeroBytes ++ zeroBytes)
    (zeroBytes ++ tenBytes ++ zeroBytes) (zeroBytes ++ zeroBytes ++ tenBytes)
    (tenBytes ++ tenBytes ++ tenBytes) (twentyBytes ++ tenBytes ++ tenBytes)
    (tenBytes ++ twentyBytes ++ tenBytes) (tenBytes ++ tenBytes ++ twentyBytes)
    ![10, 10, 10] false (fun _ => List.replicate 12 0) (fun _ => [0, 0]) 0 0 0 0
    rfl rfl rfl rfl rfl rfl rfl rfl rfl (fun _ => rfl) (fun _ => rfl)
    (decodeFloat32x3_shift zeroBytes zeroBytes zeroBytes tenBytes tenBytes tenBytes
      rfl rfl rfl rfl rfl rfl ![10, 10, 10]
      (by norm_num [float32OfBytes_zeroBytes, float32OfBytes_tenBytes,
        float32OfBytes_twentyBytes])
      (by norm_num [float32OfBytes_zeroBytes, float32OfBytes_tenBytes,
        float32OfBytes_twentyBytes])
      (by norm_num [float32OfBytes_zeroBytes, float32OfBytes_tenBytes,
        float32OfBytes_twentyBytes]))
    (decodeFloat32x3_shift tenBytes zeroBytes zeroBytes twentyBytes tenBytes tenBytes
      rfl rfl rfl rfl rfl rfl ![10, 10, 10]
      (by norm_num [float32OfBytes_zeroBytes, float32OfBytes_tenBytes,
        float32OfBytes_twentyBytes])
      (by norm_num [float32OfBytes_zeroBytes, float32OfBytes_tenBytes,
        float32OfBytes_twentyBytes])
      (by norm_num [float32OfBytes_zeroBytes, float32OfBytes_tenBytes,
        float32OfBytes_twentyBytes]))
    (decodeFloat32x3_shift zeroBytes tenBytes zeroBytes tenBytes twentyBytes tenBytes
      rfl rfl rfl rfl rfl rfl ![10, 10, 10]
      (by norm_num [float32OfBytes_zeroBytes, float32OfBytes_tenBytes,
        float32OfBytes_twentyBytes])
      (by norm_num [float32OfBytes_zeroBytes, float32OfBytes_tenBytes,
        float32OfBytes_twentyBytes])
      (by norm_num [float32OfBytes_zeroBytes, float32OfBytes_tenBytes,
        float32OfBytes_twentyBytes]))
    (decodeFloat32x3_shift zeroBytes zeroBytes tenBytes tenBytes tenBytes twentyBytes
      rfl rfl rfl rfl rfl rfl ![10, 10, 10]
      (by norm_num [float32OfBytes_zeroBytes, float32OfBytes_tenBytes,
        float32OfBytes_twentyBytes])
      (by norm_num [float32OfBytes_zeroBytes, float32OfBytes_tenBytes,
        float32OfBytes_twentyBytes])
      (by norm_num [float32OfBytes_zeroBytes, float32OfBytes_tenBytes,
        float32OfBytes_twentyBytes]))
    rfl rfl).2.2.2

/-! ## The count field and the bytes that matter -/

theorem declaredCount_eq_bytes (data : List Byte) (h : 84 ≤ data.length) :
    declaredCount data
      = (data.getD 80 0).val + 2 ^ 8 * (data.getD 81 0).val + 2 ^ 16 * (data.getD 82 0).val
        + 2 ^ 24 * (data.getD 83 0).val := by
  have h80 : 80 < data.length := by omega
  have h81 : 81 < data.length := by omega
  have h82 : 82 < data.length := by omega
  have h83 : 83 < data.length := by omega
  rw [declaredCount, List.drop_eq_getElem_cons h80, List.drop_eq_getElem_cons h81,
    List.drop_eq_getElem_cons h82, List.drop_eq_getElem_cons h83,
    List.getD_eq_getElem _ _ h80, List.getD_eq_getElem _ _ h81, List.getD_eq_getElem _ _ h82,
    List.getD_eq_getElem _ _ h83]
  simp only [List.take_succ_cons, List.take_zero, leUint, List.foldr_cons, List.foldr_nil]
  ring

theorem NewSTLCalc_trianglesCount (fs : FileSystem) (path : String) (c : STLCalc)
    (hnew : NewSTLCalc fs path = (some c, none)) : c.trianglesCount = 0 ∧ c.flag = false := by
  cases hb : c.bBinary
  · rw [NewSTLCalc_ascii fs path c hnew hb]
    exact ⟨rfl, rfl⟩
  · have hi := isAscii_of_new fs path c hnew
    rw [hb] at hi
    rcases hfs : fs path with _ | data
    · simp [isAscii, osOpen, hfs] at hi
    · rw [NewSTLCalc_binary fs path data c hfs hnew hb]
      exact ⟨rfl, rfl⟩

/-- C14: a freshly opened model reports 0 triangles; after `GetVolume` on a
Binary model whose file has at least 84 bytes it reports the little-endian
value of bytes 80..83, also when the call fails on a truncated record. -/
theorem GetTrianglesCount_after_GetVolume (fs : FileSystem) (path : String) (data : List Byte)
    (c : STLCalc) (u : String)
    (hfs : fs path = some data) (hnew : NewSTLCalc fs path = (some c, none)) :
    GetTrianglesCount c = 0 ∧
    (c.bBinary = true → 84 ≤ data.length →
      GetTrianglesCount (GetVolume c u).2
        = (data.getD 80 0).val + 2 ^ 8 * (data.getD 81 0).val + 2 ^ 16 * (data.getD 82 0).val
          + 2 ^ 24 * (data.getD 83 0).val) ∧
    (c.bBinary = true → 84 ≤ data.length → data.length < 84 + 50 * declaredCount data →
      (∃ e, (GetVolume c u).1 = (0, some e)) ∧
      GetTrianglesCount (GetVolume c u).2
        = (data.getD 80 0).val + 2 ^ 8 * (data.getD 81 0).val + 2 ^ 16 * (data.getD 82 0).val
          + 2 ^ 24 * (data.getD 83 0).val) := by
  have h0 := NewSTLCalc_trianglesCount fs path c hnew
  have hcount : c.bBinary = true → 84 ≤ data.length →
      GetTrianglesCount (GetVolume c u).2 = declaredCount data := by
    intro hb h84
    have hc := NewSTLCalc_binary fs path data c hfs hnew hb
    have hh : c.fstlHandle = some ⟨data, 0, false, 0⟩ := by rw [hc]
    by_cases hl : 84 + 50 * declaredCount data ≤ data.length
    · rw [GetVolume_binary_ok c data 0 0 u hb h0.2 hh hl]
      rfl
    · obtain ⟨e, p1, k1, hr⟩ :=
        GetVolume_binary_short c data 0 0 u hb h0.2 hh h84 (by omega)
      rw [hr]
      rfl
  refine ⟨h0.1, ?_, ?_⟩
  · intro hb h84
    rw [hcount hb h84, declaredCount_eq_bytes data h84]
  · intro hb h84 hl
    have hc := NewSTLCalc_binary fs path data c hfs hnew hb
    have hh : c.fstlHandle = some ⟨data, 0, false, 0⟩ := by rw [hc]
    obtain ⟨e, p1, k1, hr⟩ := GetVolume_binary_short c data 0 0 u hb h0.2 hh h84 hl
    refine ⟨⟨e, by rw [hr]⟩, ?_⟩
    rw [hcount hb h84, declaredCount_eq_bytes data h84]

set_option maxRecDepth 100000 in
theorem GetTrianglesCount_after_GetVolume_witness :
    GetTrianglesCount (binaryModel truncatedFile "t.stl") = 0 ∧
    GetTrianglesCount (GetVolume (binaryModel truncatedFile "t.stl") "cm").2
      = (truncatedFile.getD 80 0).val + 2 ^ 8 * (truncatedFile.getD 81 0).val
        + 2 ^ 16 * (truncatedFile.getD 82 0).val + 2 ^ 24 * (truncatedFile.getD 83 0).val :=
  have h := GetTrianglesCount_after_GetVolume (fun _ => some truncatedFile) "t.stl"
    truncatedFile (binaryModel truncatedFile "t.stl") "cm" rfl
    (NewSTLCalc_of_isAscii_false _ _ truncatedFile rfl (by decide))
  ⟨h.1, h.2.1 rfl (by decide)⟩

theorem recordVolume_take50 (b : List Byte) :
    recordVolume (b.take 50) = vertexVolume ((b.drop 12).take 36) := by
  simp only [recordVolume, vertexVolume, List.drop_take, List.take_take, List.drop_drop]
  have e1 : min 12 (50 - 12) = 12 := by decide
  have e2 : min 12 (50 - 24) = 12 := by decide
  have e3 : min 12 (50 - 36) = 12 := by decide
  have e4 : min 12 36 = 12 := by decide
  have e5 : min 12 (36 - 12) = 12 := by decide
  have e6 : min 12 (36 - 24) = 12 := by decide
  simp only [e1, e2, e3, e4, e5, e6]

theorem records_map_congr (n : Nat) : ∀ (b1 b2 : List Byte),
    (∀ i, i < n → (b1.drop (50 * i + 12)).take 36 = (b2.drop (50 * i + 12)).take 36) →
    (records b1 n).map recordVolume = (records b2 n).map recordVolume := by
  induction n with
  | zero => intro b1 b2 _; rfl
  | succ n ih =>
    intro b1 b2 h
    have h0 := h 0 (by omega)
    simp only [Nat.mul_zero, Nat.zero_add] at h0
    have ht := ih (b1.drop 50) (b2.drop 50) (by
      intro i hi
      have := h (i + 1) (by omega)
      rw [List.drop_drop, List.drop_drop]
      have e : 50 + (50 * i + 12) = 50 * (i + 1) + 12 := by ring
      rw [e]
      exact this)
    simp only [records, List.map_cons, recordVolume_take50, h0, ht]

/-- C17: two files that agree on the count bytes 80..83 and on the 36 vertex
bytes at offsets 12..47 of each declared record, and that both hold all the
declared records, give the same `readBinaryVolume` result: header, normals,
attribute bytes and trailing bytes do not enter it.  Each record read moves the
stream by exactly 50 bytes, so both reads end at offset `84 + 50 * N`. -/
theorem readBinaryVolume_depends_on_vertices (c1 c2 : STLCalc) (d1 d2 : List Byte)
    (p1 k1 p2 k2 : Nat)
    (hc1 : c1.fstlHandle = some ⟨d1, p1, false, k1⟩)
    (hc2 : c2.fstlHandle = some ⟨d2, p2, false, k2⟩)
    (hcount : (d1.drop 80).take 4 = (d2.drop 80).take 4)
    (hl1 : 84 + 50 * declaredCount d1 ≤ d1.length)
    (hl2 : 84 + 50 * declaredCount d1 ≤ d2.length)
    (hv : ∀ i, i < declaredCount d1 →
      (d1.drop (84 + 50 * i + 12)).take 36 = (d2.drop (84 + 50 * i + 12)).take 36) :
    (readBinaryVolume c1).1 = (readBinaryVolume c2).1 ∧
    (readBinaryVolume c1).2.fstlHandle
      = some ⟨d1, 84 + 50 * declaredCount d1, false, k1 + 2 + 5 * declaredCount d1⟩ ∧
    (readBinaryVolume c2).2.fstlHandle
      = some ⟨d2, 84 + 50 * declaredCount d1, false, k2 + 2 + 5 * declaredCount d1⟩ ∧
    (∀ (c : STLCalc) (d : List Byte) (p k : Nat), c.fstlHandle = some ⟨d, p, false, k⟩ →
      p + 50 ≤ d.length → (readTriangle c).2.fstlHandle = some ⟨d, p + 50, false, k + 5⟩) := by
  have hN : declaredCount d2 = declaredCount d1 := by
    rw [declaredCount, declaredCount, hcount]
  have hmap : (records (d1.drop 84) (declaredCount d1)).map recordVolume
      = (records (d2.drop 84) (declaredCount d1)).map recordVolume := by
    apply records_map_congr
    intro i hi
    have := hv i hi
    rw [List.drop_drop, List.drop_drop]
    have e : 84 + (50 * i + 12) = 84 + 50 * i + 12 := by ring
    rw [e]
    exact this
  rw [readBinaryVolume_ok c1 d1 p1 k1 hc1 hl1,
    readBinaryVolume_ok c2 d2 p2 k2 hc2 (by rw [hN]; exact hl2), hN, hmap]
  refine ⟨rfl, rfl, rfl, ?_⟩
  intro c d p k hc hp
  rw [readTriangle_ok c d p k hc hp]

theorem cornerTriangle_volume :
    (readBinaryVolume (binaryModel oneTriangleFile "a.stl")).1 = (500 / 3, none) := by
  rw [oneTriangleFile, readBinaryVolume_binarySTL _ (List.replicate 80 0) [cornerTriangle] [] 0 0
    rfl (by decide) (by
      intro t ht
      rw [List.mem_singleton] at ht
      subst ht
      exact ⟨rfl, rfl, rfl, rfl, rfl⟩) rfl]
  simp only [List.map_cons, List.map_nil, List.sum_cons, List.sum_nil, add_zero,
    Triangle.signedVolume, cornerTriangle, signedVolumeOfTriangle,
    decodeFloat32x3_eq _ _ _ (rfl : tenBytes.length = 4) (rfl : zeroBytes.length = 4)
      (rfl : zeroBytes.length = 4),
    decodeFloat32x3_eq _ _ _ (rfl : zeroBytes.length = 4) (rfl : tenBytes.length = 4)
      (rfl : zeroBytes.length = 4),
    decodeFloat32x3_eq _ _ _ (rfl : zeroBytes.length = 4) (rfl : zeroBytes.length = 4)
      (rfl : tenBytes.length = 4),
    float32OfBytes_tenBytes, float32OfBytes_zeroBytes, Matrix.cons_val_zero,
    Matrix.cons_val_one, Matrix.cons_val_two, Matrix.head_cons, Matrix.tail_cons]
  norm_num

set_option maxRecDepth 100000 in
theorem readBinaryVolume_depends_on_vertices_witness :
    (readBinaryVolume (binaryModel oneTriangleFile "a.stl")).1
      = (readBinaryVolume (binaryModel oneTriangleVariant "b.stl")).1 ∧
    (readBinaryVolume (binaryModel oneTriangleFile "a.stl")).1 = (500 / 3, none) :=
  ⟨(readBinaryVolume_depends_on_vertices (binaryModel oneTriangleFile "a.stl")
    (binaryModel oneTriangleVariant "b.stl") oneTriangleFile oneTriangleVariant 0 0 0 0
    rfl rfl (by decide) (by decide) (by decide) (by decide)).1, cornerTriangle_volume⟩

/-! ## After `Close`, and the density -/

theorem GetWeight_snd (c : STLCalc) : (GetWeight c).2 = (GetVolume c "cm").2 := by
  rw [GetWeight]
  rcases GetVolume c "cm" with ⟨⟨v, _ | e⟩, c1⟩ <;> rfl

theorem GetVolume_density (c : STLCalc) (u : String) : (GetVolume c u).2.density = c.density := by
  have h := GetVolume_SetDensity c c.density u
  have e : SetDensity c c.density = c := rfl
  rw [e] at h
  have h2 := congrArg (fun r => r.2.density) h
  exact h2

theorem applyCall_density (c : STLCalc) (x : Call) :
    (applyCall c x).density = (match x with
      | Call.setDensity d => d
      | _ => c.density) := by
  cases x with
  | setDensity d => rfl
  | getVolume u => exact GetVolume_density c u
  | getWeight =>
    show (GetWeight c).2.density = c.density
    rw [GetWeight_snd, GetVolume_density]
  | close => rfl

theorem GetVolume_closed (c : STLCalc) (f : File) (u : String)
    (hb : c.bBinary = true) (hf : c.flag = false) (hc : c.fstlHandle = some f)
    (hcl : f.closed = true) :
    GetVolume c u
      = ((0, some GoError.closed), { c with fstlHandle := some { f with calls := f.calls + 1 } }) := by
  simp only [GetVolume, hf, calculateVolume, hb, readBinaryVolume, hc,
    fileSeek_closed f 80 hcl, Bool.not_false, if_true]

theorem applyCalls_closed (xs : List Call) :
    ∀ (c : STLCalc) (f : File), c.bBinary = true → c.flag = false →
      c.fstlHandle = some f → f.closed = true →
      ∃ f1, (applyCalls c xs).bBinary = true ∧ (applyCalls c xs).flag = false ∧
        (applyCalls c xs).fstlHandle = some f1 ∧ f1.closed = true := by
  induction xs with
  | nil =>
    intro c f hb hf hc hcl
    exact ⟨f, hb, hf, hc, hcl⟩
  | cons x xs ih =>
    intro c f hb hf hc hcl
    have step : ∃ f1, (applyCall c x).bBinary = true ∧ (applyCall c x).flag = false ∧
        (applyCall c x).fstlHandle = some f1 ∧ f1.closed = true := by
      cases x with
      | setDensity density => exact ⟨f, hb, hf, hc, hcl⟩
      | getVolume unit =>
        refine ⟨{ f with calls := f.calls + 1 }, ?_, ?_, ?_, hcl⟩ <;>
          simp only [applyCall, GetVolume_closed c f unit hb hf hc hcl, hb, hf]
      | getWeight =>
        refine ⟨{ f with calls := f.calls + 1 }, ?_, ?_, ?_, hcl⟩ <;>
          simp only [applyCall, GetWeight_snd, GetVolume_closed c f "cm" hb hf hc hcl, hb, hf]
      | close =>
        refine ⟨{ f with closed := true }, hb, hf, ?_, rfl⟩
        simp only [applyCall, Close, hc, fileClose]
    obtain ⟨f1, h1, h2, h3, h4⟩ := step
    exact ih (applyCall c x) f1 h1 h2 h3 h4

/-- C12 (as amended): on a Binary model whose volume has not been computed,
after `Close()` every later `GetVolume` and `GetWeight` call, whatever other
calls come in between, fails with the closed-file error and the value 0.  A
model whose volume is already cached keeps answering from the cache after
`Close()`, and an Ascii model keeps answering 0. -/
theorem GetVolume_after_Close (c : STLCalc) (f : File) (xs : List Call) (u : String)
    (hb : c.bBinary = true) (hf : c.flag = false) (hc : c.fstlHandle = some f) :
    (GetVolume (applyCalls (Close c) xs) u).1 = (0, some GoError.closed) ∧
    (GetWeight (applyCalls (Close c) xs)).1 = (0, some GoError.closed) ∧
    (∀ (c1 : STLCalc) (u1 : String), c1.flag = true →
      (GetVolume (Close c1) u1).1 = (GetVolume c1 u1).1 ∧
      (GetVolume (Close c1) u1).1.2 = none) ∧
    (∀ (c1 : STLCalc) (u1 : String), c1.bBinary = false → c1.flag = false →
      (GetVolume (Close c1) u1).1 = (0, none)) := by
  have hcc : (Close c).fstlHandle = some { f with closed := true } := by
    simp only [Close, hc, fileClose]
  obtain ⟨f1, h1, h2, h3, h4⟩ :=
    applyCalls_closed xs (Close c) { f with closed := true } hb hf hcc rfl
  refine ⟨?_, ?_, ?_, ?_⟩
  · rw [GetVolume_closed _ f1 u h1 h2 h3 h4]
  · rw [GetWeight, GetVolume_closed _ f1 "cm" h1 h2 h3 h4]
  · intro c1 u1 hf1
    have hf2 : (Close c1).flag = true := hf1
    rw [GetVolume_of_flag c1 u1 hf1, GetVolume_of_flag (Close c1) u1 hf2]
    exact ⟨rfl, rfl⟩
  · intro c1 u1 hb1 hf1
    have hb2 : (Close c1).bBinary = false := hb1
    have hf2 : (Close c1).flag = false := hf1
    by_cases hu : u1 = "cm" <;> simp [GetVolume, calculateVolume, inch3, hu, hb2, hf2]

theorem GetVolume_after_Close_witness :
    (GetVolume (applyCalls (Close (binaryModel emptyMesh "e.stl")) [Call.setDensity 2]) "cm").1
      = (0, some GoError.closed) :=
  (GetVolume_after_Close (binaryModel emptyMesh "e.stl") ⟨emptyMesh, 0, false, 0⟩
    [Call.setDensity 2] "cm" rfl rfl rfl).1

set_option maxRecDepth 100000 in
theorem GetVolume_after_Close_counterexample :
    NewSTLCalc (fun _ => some emptyMesh) "e.stl" = (some (binaryModel emptyMesh "e.stl"), none) ∧
    (GetVolume (Close (GetVolume (binaryModel emptyMesh "e.stl") "cm").2) "cm").1.2 = none ∧
    NewSTLCalc (fun _ => some asciiSample) "a.stl" = (some asciiModel, none) ∧
    (GetVolume (Close asciiModel) "cm").1 = (0, none) ∧
    (GetWeight (Close asciiModel)).1 = (0, none) := by
  refine ⟨NewSTLCalc_of_isAscii_false _ _ emptyMesh rfl (by decide), ?_,
    NewSTLCalc_of_isAscii_true _ _ (by decide), ?_, ?_⟩
  · have hflag : (Close (GetVolume (binaryModel emptyMesh "e.stl") "cm").2).flag = true := by
      rw [GetVolume_binary_ok (binaryModel emptyMesh "e.stl") emptyMesh 0 0 "cm" rfl rfl rfl
        (by decide)]
      rfl
    rw [GetVolume_of_flag _ "cm" hflag]
  · simp [GetVolume, Close, asciiModel, calculateVolume, fileClose]
  · simp [GetWeight, GetVolume, Close, asciiModel, calculateVolume, fileClose, calculateWeight]

theorem applyCalls_density_pos (xs : List Call) : ∀ (c : STLCalc), 0 < c.density →
    (∀ d, Call.setDensity d ∈ xs → 0 < d) → 0 < (applyCalls c xs).density := by
  induction xs with
  | nil => intro c h _; exact h
  | cons x xs ih =>
    intro c h hpos
    apply ih (applyCall c x)
    · rw [applyCall_density]
      cases x with
      | setDensity d => exact hpos d (List.mem_cons_self _ _)
      | getVolume u => exact h
      | getWeight => exact h
      | close => exact h
    · intro d hd
      exact hpos d (List.mem_cons_of_mem _ hd)

theorem NewSTLCalc_density (fs : FileSystem) (path : String) (c : STLCalc)
    (hnew : NewSTLCalc fs path = (some c, none)) : c.density = 1.04 := by
  cases hb : c.bBinary
  · rw [NewSTLCalc_ascii fs path c hnew hb]
  · have hi := isAscii_of_new fs path c hnew
    rw [hb] at hi
    rcases hfs : fs path with _ | data
    · simp [isAscii, osOpen, hfs] at hi
    · rw [NewSTLCalc_binary fs path data c hfs hnew hb]

/-- C13 (as amended): in every state reached from `NewSTLCalc` by calls of
`SetDensity`, `GetVolume`, `GetWeight` and `Close` in which every `SetDensity`
argument is strictly positive, the density is strictly positive; it is the
default 1.04 or the last argument of `SetDensity`, stored as given. -/
theorem density_positive (fs : FileSystem) (path : String) (c : STLCalc) (xs : List Call)
    (hnew : NewSTLCalc fs path = (some c, none))
    (hpos : ∀ d, Call.setDensity d ∈ xs → 0 < d) :
    0 < GetDensity (applyCalls c xs) ∧
    (∀ d : Float64, GetDensity (applyCalls c (xs ++ [Call.setDensity d])) = d) := by
  refine ⟨?_, ?_⟩
  · apply applyCalls_density_pos xs c _ hpos
    rw [NewSTLCalc_density fs path c hnew]
    norm_num
  · intro d
    have happ : ∀ (ys : List Call) (c0 : STLCalc),
        applyCalls c0 (ys ++ [Call.setDensity d]) = SetDensity (applyCalls c0 ys) d := by
      intro ys
      induction ys with
      | nil => intro c0; rfl
      | cons y ys ih => intro c0; exact ih (applyCall c0 y)
    rw [happ]
    rfl

set_option maxRecDepth 100000 in
theorem density_positive_witness :
    0 < GetDensity (applyCalls (binaryModel emptyMesh "e.stl")
      [Call.setDensity 2, Call.getWeight, Call.close]) :=
  (density_positive (fun _ => some emptyMesh) "e.stl" (binaryModel emptyMesh "e.stl")
    [Call.setDensity 2, Call.getWeight, Call.close]
    (NewSTLCalc_of_isAscii_false _ _ emptyMesh rfl (by decide))
    (by
      intro d hd
      simp only [List.mem_cons, Call.setDensity.injEq, List.mem_singleton, List.not_mem_nil,
        or_false, reduceCtorEq] at hd
      rw [hd]
      norm_num)).1

set_option maxRecDepth 100000 in
theorem density_positive_counterexample :
    NewSTLCalc (fun _ => some emptyMesh) "e.stl" = (some (binaryModel emptyMesh "e.stl"), none) ∧
    GetDensity (applyCalls (binaryModel emptyMesh "e.stl") [Call.setDensity 0]) = 0 ∧
    ¬ 0 < GetDensity (applyCalls (binaryModel emptyMesh "e.stl") [Call.setDensity 0]) := by
  refine ⟨NewSTLCalc_of_isAscii_false _ _ emptyMesh rfl (by decide), rfl, ?_⟩
  show ¬ (0 : ℚ) < 0
  exact lt_irrefl 0

/-! ## The cube file -/

set_option maxRecDepth 100000 in
theorem cubeFile_GetVolume : (GetVolume (binaryModel cubeFile "cube.stl") "cm").1 = (1, none) := by
  have hwf := cubeTriangles_wellFormed (fun _ => zeroBytes) (fun _ => tenBytes) false
    (fun _ => List.replicate 12 0) (fun _ => [0, 0]) (fun _ => rfl) (fun _ => rfl)
    (fun _ => rfl) (fun _ => rfl)
  have hs := cubeTriangles_sum (fun _ => zeroBytes) (fun _ => tenBytes) false
    (fun _ => List.replicate 12 0) (fun _ => [0, 0]) (fun _ => rfl) (fun _ => rfl)
  have hfv := fileVolume_binarySTL (List.replicate 80 0)
    (cubeTriangles (fun _ => zeroBytes) (fun _ => tenBytes) false
      (fun _ => List.replicate 12 0) (fun _ => [0, 0])) [] rfl
    (by rw [cubeTriangles_length]; decide) hwf
  have hvol : fileVolume cubeFile = 1000 := by
    rw [cubeFile, hfv, hs]
    simp only [float32OfBytes_tenBytes, float32OfBytes_zeroBytes]
    norm_num
  rw [GetVolume_binary_ok (binaryModel cubeFile "cube.stl") cubeFile 0 0 "cm" rfl rfl rfl
    (by decide), hvol]
  norm_num

set_option maxRecDepth 100000 in
theorem NewSTLCalc_cubeFile :
    NewSTLCalc (fun _ => some cubeFile) "cube.stl"
      = (some (binaryModel cubeFile "cube.stl"), none) :=
  NewSTLCalc_of_isAscii_false _ _ cubeFile rfl (by decide)

/-! ## The pattern search -/

theorem plusLoop_iff (cls : Byte → Bool) (k : List Byte → Bool) (s : List Byte) :
    plusLoop cls k s = true ↔
      ∃ run s1, run ≠ [] ∧ (∀ b ∈ run, cls b = true) ∧ s = run ++ s1 ∧ k s1 = true := by
  induction s with
  | nil =>
    simp only [plusLoop, Bool.false_eq_true, false_iff]
    rintro ⟨run, s1, hne, _, hs, _⟩
    cases run with
    | nil => exact hne rfl
    | cons b run => simp at hs
  | cons b s ih =>
    simp only [plusLoop, Bool.and_eq_true, Bool.or_eq_true]
    constructor
    · rintro ⟨hb, h | h⟩
      · obtain ⟨run, s1, _, hall, hs, hk⟩ := ih.mp h
        refine ⟨b :: run, s1, by simp, ?_, by rw [hs]; rfl, hk⟩
        intro x hx
        rcases List.mem_cons.mp hx with rfl | hx
        · exact hb
        · exact hall x hx
      · refine ⟨[b], s, by simp, ?_, rfl, h⟩
        intro x hx
        rw [List.mem_singleton.mp hx]
        exact hb
    · rintro ⟨run, s1, hne, hall, hs, hk⟩
      cases run with
      | nil => exact absurd rfl hne
      | cons x run =>
        simp only [List.cons_append, List.cons.injEq] at hs
        obtain ⟨rfl, hs⟩ := hs
        refine ⟨hall b (List.mem_cons_self _ _), ?_⟩
        cases run with
        | nil =>
          right
          rw [hs]
          exact hk
        | cons y run =>
          left
          exact ih.mpr ⟨y :: run, s1, by simp, fun z hz => hall z (List.mem_cons_of_mem _ hz),
            hs, hk⟩

theorem matchHere_iff (pat : List PatItem) : ∀ s : List Byte,
    matchHere pat s = true ↔ ∃ m rest, s = m ++ rest ∧ Matches pat m := by
  induction pat with
  | nil =>
    intro s
    simp only [matchHere, true_iff]
    exact ⟨[], s, rfl, rfl⟩
  | cons it r ih =>
    intro s
    cases it with
    | lit c =>
      cases s with
      | nil =>
        simp only [matchHere, Bool.false_eq_true, false_iff]
        rintro ⟨m, rest, hs, m1, hm, _⟩
        rw [hm] at hs
        simp at hs
      | cons b s1 =>
        simp only [matchHere, Bool.and_eq_true, beq_iff_eq]
        constructor
        · rintro ⟨rfl, h⟩
          obtain ⟨m, rest, hs, hm⟩ := (ih s1).mp h
          exact ⟨b :: m, rest, by rw [hs]; rfl, m, rfl, hm⟩
        · rintro ⟨m, rest, hs, m1, hm, hr⟩
          rw [hm] at hs
          simp only [List.cons_append, List.cons.injEq] at hs
          exact ⟨hs.1, (ih s1).mpr ⟨m1, rest, hs.2, hr⟩⟩
    | plus cls =>
      simp only [matchHere]
      rw [plusLoop_iff]
      constructor
      · rintro ⟨run, s1, hne, hall, hs, hk⟩
        obtain ⟨m, rest, hs1, hm⟩ := (ih s1).mp hk
        exact ⟨run ++ m, rest, by rw [hs, hs1, List.append_assoc], run, m, hne, hall, rfl, hm⟩
      · rintro ⟨m, rest, hs, run, m1, hne, hall, hm, hr⟩
        exact ⟨run, m1 ++ rest, hne, hall, by rw [hs, hm, List.append_assoc],
          (ih (m1 ++ rest)).mpr ⟨m1, rest, rfl, hr⟩⟩

theorem regexpMatch_iff (pat : List PatItem) (buf : List Byte) :
    regexpMatch pat buf = true ↔ ∃ pre m post, buf = pre ++ m ++ post ∧ Matches pat m := by
  simp only [regexpMatch, List.any_eq_true, List.mem_tails]
  constructor
  · rintro ⟨t, ⟨pre, hpre⟩, ht⟩
    obtain ⟨m, rest, hs, hm⟩ := (matchHere_iff pat t).mp ht
    exact ⟨pre, m, rest, by rw [← hpre, hs, List.append_assoc], hm⟩
  · rintro ⟨pre, m, post, hb, hm⟩
    exact ⟨m ++ post, ⟨pre, by rw [hb, List.append_assoc]⟩,
      (matchHere_iff pat _).mpr ⟨m, post, rfl, hm⟩⟩

theorem Matches_append (p1 p2 : List PatItem) : ∀ m : List Byte,
    Matches (p1 ++ p2) m ↔ ∃ m1 m2, m = m1 ++ m2 ∧ Matches p1 m1 ∧ Matches p2 m2 := by
  induction p1 with
  | nil =>
    intro m
    simp only [List.nil_append, Matches]
    constructor
    · intro h
      exact ⟨[], m, rfl, rfl, h⟩
    · rintro ⟨m1, m2, hm, rfl, h2⟩
      rw [hm]
      exact h2
  | cons it r ih =>
    intro m
    cases it with
    | lit c =>
      simp only [List.cons_append, Matches]
      constructor
      · rintro ⟨m1, hm, h⟩
        obtain ⟨a, b, hab, ha, hb⟩ := (ih m1).mp h
        exact ⟨c :: a, b, by rw [hm, hab]; rfl, ⟨a, rfl, ha⟩, hb⟩
      · rintro ⟨m1, m2, hm, ⟨a, ha, hra⟩, h2⟩
        exact ⟨a ++ m2, by rw [hm, ha]; rfl, (ih _).mpr ⟨a, m2, rfl, hra, h2⟩⟩
    | plus cls =>
      simp only [List.cons_append, Matches]
      constructor
      · rintro ⟨run, m1, hne, hall, hm, h⟩
        obtain ⟨a, b, hab, ha, hb⟩ := (ih m1).mp h
        exact ⟨run ++ a, b, by rw [hm, hab, List.append_assoc], ⟨run, a, hne, hall, rfl, ha⟩, hb⟩
      · rintro ⟨m1, m2, hm, ⟨run, a, hne, hall, ha, hra⟩, h2⟩
        exact ⟨run, a ++ m2, hne, hall, by rw [hm, ha, List.append_assoc],
          (ih _).mpr ⟨a, m2, rfl, hra, h2⟩⟩

theorem Matches_lits (bs m : List Byte) : Matches (bs.map PatItem.lit) m ↔ m = bs := by
  induction bs generalizing m with
  | nil => simp only [List.map_nil, Matches]
  | cons b bs ih =>
    simp only [List.map_cons, Matches]
    constructor
    · rintro ⟨m1, hm, h⟩
      rw [hm, (ih m1).mp h]
    · intro hm
      exact ⟨bs, hm, (ih bs).mpr rfl⟩

theorem Matches_plus (cls : Byte → Bool) (m : List Byte) :
    Matches [PatItem.plus cls] m ↔ m ≠ [] ∧ ∀ b ∈ m, cls b = true := by
  simp only [Matches]
  constructor
  · rintro ⟨run, m1, hne, hall, hm, rfl⟩
    rw [List.append_nil] at hm
    rw [hm]
    exact ⟨hne, hall⟩
  · rintro ⟨hne, hall⟩
    exact ⟨m, [], hne, hall, by rw [List.append_nil], rfl⟩

set_option maxRecDepth 100000 in
theorem isSpace_iff (b : Byte) : isSpace b = true ↔ b ∈ whitespaceBytes := by
  revert b
  decide

set_option maxRecDepth 100000 in
theorem isNumChar_iff (b : Byte) : isNumChar b = true ↔ b ∈ numericBytes := by
  revert b
  decide

theorem asciiPattern_eq : asciiPattern = patternOfTokens facetGrammar := rfl

theorem Derives_iff_Matches (ts : List Token) : ∀ m : List Byte,
    Derives ts m ↔ Matches (patternOfTokens ts) m := by
  induction ts with
  | nil => intro m; rfl
  | cons t ts ih =>
    intro m
    cases t with
    | word s =>
      simp only [Derives, patternOfTokens, patternOf, litItems]
      rw [Matches_append]
      constructor
      · rintro ⟨m1, hm, h⟩
        exact ⟨bytesOf s, m1, hm, (Matches_lits _ _).mpr rfl, (ih m1).mp h⟩
      · rintro ⟨a, b, hm, ha, hb⟩
        rw [(Matches_lits _ _).mp ha] at hm
        exact ⟨b, hm, (ih b).mpr hb⟩
    | space =>
      simp only [Derives, patternOfTokens, patternOf, List.singleton_append, Matches]
      constructor
      · rintro ⟨w, m1, hne, hall, hm, h⟩
        exact ⟨w, m1, hne, fun b hb => (isSpace_iff b).mpr (hall b hb), hm, (ih m1).mp h⟩
      · rintro ⟨w, m1, hne, hall, hm, h⟩
        exact ⟨w, m1, hne, fun b hb => (isSpace_iff b).mp (hall b hb), hm, (ih m1).mpr h⟩
    | number =>
      simp only [Derives, patternOfTokens, patternOf, List.singleton_append, Matches]
      constructor
      · rintro ⟨w, m1, hne, hall, hm, h⟩
        exact ⟨w, m1, hne, fun b hb => (isNumChar_iff b).mpr (hall b hb), hm, (ih m1).mp h⟩
      · rintro ⟨w, m1, hne, hall, hm, h⟩
        exact ⟨w, m1, hne, fun b hb => (isNumChar_iff b).mp (hall b hb), hm, (ih m1).mpr h⟩

theorem Matches_nonzero (pat : List PatItem) : ∀ m : List Byte,
    (∀ it ∈ pat, PatItem.rejectsZero it = true) → Matches pat m →
    (∀ b ∈ m, b ≠ 0) ∧ pat.length ≤ m.length := by
  induction pat with
  | nil =>
    intro m _ hm
    simp only [Matches] at hm
    subst hm
    exact ⟨fun b hb => absurd hb (List.not_mem_nil b), le_refl _⟩
  | cons it r ih =>
    intro m hz hm
    have hr := fun m1 => ih m1 (fun it1 h1 => hz it1 (List.mem_cons_of_mem _ h1))
    have hit := hz it (List.mem_cons_self _ _)
    cases it with
    | lit c =>
      obtain ⟨m1, hm1, h⟩ := hm
      obtain ⟨h1, h2⟩ := hr m1 h
      subst hm1
      refine ⟨?_, by simp only [List.length_cons]; omega⟩
      intro b hb
      rcases List.mem_cons.mp hb with rfl | hb
      · simpa [PatItem.rejectsZero] using hit
      · exact h1 b hb
    | plus cls =>
      obtain ⟨run, m1, hne, hall, hm1, h⟩ := hm
      obtain ⟨h1, h2⟩ := hr m1 h
      subst hm1
      have hlen : 0 < run.length := List.length_pos.mpr hne
      refine ⟨?_, by simp only [List.length_cons, List.length_append]; omega⟩
      intro b hb
      rcases List.mem_append.mp hb with hb | hb
      · intro h0
        have := hall b hb
        rw [h0] at this
        simp [PatItem.rejectsZero, this] at hit
      · exact h1 b hb

theorem contains_pad (pat : List PatItem) (hz : ∀ it ∈ pat, PatItem.rejectsZero it = true)
    (hne : pat ≠ []) (got : List Byte) (n : Nat) :
    (∃ pre m post, got ++ List.replicate n (0 : Byte) = pre ++ m ++ post ∧ Matches pat m) ↔
    (∃ pre m post, got = pre ++ m ++ post ∧ Matches pat m) := by
  constructor
  · rintro ⟨pre, m, post, hb, hm⟩
    obtain ⟨hnz, hlen⟩ := Matches_nonzero pat m hz hm
    have hpl : 0 < pat.length := List.length_pos.mpr hne
    rcases List.append_eq_append_iff.mp hb with ⟨a, h1, h2⟩ | ⟨c, h1, _⟩
    · rcases List.eq_nil_or_concat a with rfl | ⟨a0, y, ha⟩
      · rw [List.append_nil] at h1
        exact ⟨pre, m, [], by rw [List.append_nil, h1], hm⟩
      · exfalso
        rw [List.concat_eq_append] at ha
        subst ha
        have hy : y = 0 := by
          have : y ∈ List.replicate n (0 : Byte) := by
            rw [h2]
            simp
          exact (List.mem_replicate.mp this).2
        rcases List.eq_nil_or_concat m with rfl | ⟨m0, x, hm0⟩
        · have h0 : pat.length ≤ 0 := hlen
          omega
        · rw [List.concat_eq_append] at hm0
          subst hm0
          have hx : x ≠ 0 := hnz x (by simp)
          have e : (pre ++ m0) ++ [x] = (got ++ a0) ++ [y] := by
            simp only [List.append_assoc] at h1 ⊢
            exact h1
          have := (List.append_inj' e rfl).2
          simp only [List.cons.injEq, and_true] at this
          exact hx (this.trans hy)
    · exact ⟨pre, m, c, h1, hm⟩
  · rintro ⟨pre, m, post, hb, hm⟩
    exact ⟨pre, m, post ++ List.replicate n 0, by rw [hb]; simp only [List.append_assoc], hm⟩

theorem asciiPattern_rejectsZero : ∀ it ∈ asciiPattern, PatItem.rejectsZero it = true := by
  have h : asciiPattern.all PatItem.rejectsZero = true := by decide
  exact List.all_eq_true.mp h

theorem asciiPattern_length : asciiPattern.length = 85 := by decide

theorem isAscii_of_data (fs : FileSystem) (path : String) (data : List Byte)
    (hfs : fs path = some data) (hne : data ≠ []) :
    isAscii fs path
      = (regexpMatch asciiPattern
          (data.take 512 ++ List.replicate (512 - (data.take 512).length) (0 : Byte)), none) := by
  have hl : (data.take 512).length ≠ 0 := by
    rw [List.length_take]
    have := List.length_pos.mpr hne
    omega
  simp only [isAscii, osOpen, hfs, if_neg hl]

theorem isAscii_iff_ContainsFacet (fs : FileSystem) (path : String) (data : List Byte)
    (hfs : fs path = some data) (hne : data ≠ []) :
    (isAscii fs path).2 = none ∧
    ((isAscii fs path).1 = true ↔ ContainsFacet (data.take 512)) := by
  rw [isAscii_of_data fs path data hfs hne]
  refine ⟨rfl, ?_⟩
  show regexpMatch asciiPattern _ = true ↔ _
  rw [regexpMatch_iff, contains_pad asciiPattern asciiPattern_rejectsZero
    (by intro h; have := asciiPattern_length; rw [h] at this; simp at this)]
  simp only [ContainsFacet, Derives_iff_Matches, ← asciiPattern_eq]

/-! ## Classification of a file -/

/-- What the sniffer accepts: for a non-empty file, `isAscii` answers without
error, and `NewSTLCalc` classifies the file as Ascii when its first 512 bytes
contain an instance of the pattern (keywords, whitespace runs, and fields that
are non-empty runs of digits, `-`, `.`, `e`, `E`) and as Binary when they do
not. -/
theorem isAscii_classification (fs : FileSystem) (path : String) (data : List Byte)
    (hfs : fs path = some data) (hne : data ≠ []) :
    ∃ c, NewSTLCalc fs path = (some c, none) ∧
      (ContainsFacet (data.take 512) → isAscii fs path = (true, none) ∧ c.bBinary = false) ∧
      (¬ ContainsFacet (data.take 512) → isAscii fs path = (false, none) ∧ c.bBinary = true) := by
  obtain ⟨herr, hiff⟩ := isAscii_iff_ContainsFacet fs path data hfs hne
  rcases hi : isAscii fs path with ⟨b, e⟩
  rw [hi] at herr hiff
  simp only at herr hiff
  subst herr
  cases b
  · refine ⟨_, NewSTLCalc_of_isAscii_false fs path data hfs hi, ?_, ?_⟩
    · intro hc
      exact absurd (hiff.mpr hc) (by decide)
    · intro _
      exact ⟨rfl, rfl⟩
  · refine ⟨_, NewSTLCalc_of_isAscii_true fs path hi, ?_, ?_⟩
    · intro _
      exact ⟨rfl, rfl⟩
    · intro hc
      exact absurd (hiff.mp rfl) hc

theorem isAscii_classification_witness :
    ∃ c, NewSTLCalc (fun _ => some asciiSample) "a.stl" = (some c, none) ∧
      (ContainsFacet (asciiSample.take 512) →
        isAscii (fun _ => some asciiSample) "a.stl" = (true, none) ∧ c.bBinary = false) ∧
      (¬ ContainsFacet (asciiSample.take 512) →
        isAscii (fun _ => some asciiSample) "a.stl" = (false, none) ∧ c.bBinary = true) :=
  isAscii_classification (fun _ => some asciiSample) "a.stl" asciiSample rfl (by decide)

theorem not_ContainsFacet_of_short (data : List Byte) (h : data.length < 85) :
    ¬ ContainsFacet (data.take 512) := by
  rintro ⟨pre, m, post, hb, hm⟩
  rw [Derives_iff_Matches, ← asciiPattern_eq] at hm
  have hlen := (Matches_nonzero asciiPattern m asciiPattern_rejectsZero hm).2
  rw [asciiPattern_length] at hlen
  have hl := congrArg List.length hb
  rw [List.length_take, List.length_append, List.length_append] at hl
  omega

theorem GetVolume_header_short (c : STLCalc) (d : List Byte) (p k : Nat) (u : String)
    (hb : c.bBinary = true) (hf : c.flag = false)
    (hc : c.fstlHandle = some ⟨d, p, false, k⟩) (h84 : d.length < 84) :
    ∃ e p1 k1, GetVolume c u
      = ((0, some e), { c with fstlHandle := some ⟨d, p1, false, k1⟩ }) := by
  obtain ⟨e, p1, k1, hr⟩ := readBinaryVolume_header_short c d p k hc h84
  refine ⟨e, p1, k1, ?_⟩
  simp only [GetVolume, hf, calculateVolume, hb, if_true, Bool.not_false, hr]

/-- C11 (as amended): for a non-empty file shorter than 84 bytes `NewSTLCalc`
succeeds and classifies the file Binary; the first `GetVolume` call then
returns an error with the value 0, raised while reading the count field (no
triangle count is stored, nothing is cached).  An empty file is refused by
`NewSTLCalc` itself: the sniffing read returns `io.EOF`. -/
theorem short_file_fails_at_decode (fs : FileSystem) (path : String) (data : List Byte)
    (u : String) (hfs : fs path = some data) (hlt : data.length < 84) :
    (data ≠ [] →
      ∃ c, NewSTLCalc fs path = (some c, none) ∧ c.bBinary = true ∧
        (∃ e, (GetVolume c u).1 = (0, some e)) ∧
        (GetVolume c u).2.flag = false ∧ (GetVolume c u).2.trianglesCount = 0) ∧
    (data = [] → NewSTLCalc fs path = (none, some GoError.eof)) := by
  refine ⟨?_, ?_⟩
  · intro hne
    obtain ⟨herr, hiff⟩ := isAscii_iff_ContainsFacet fs path data hfs hne
    have h1 : (isAscii fs path).1 = false := by
      cases hv : (isAscii fs path).1
      · rfl
      · exact absurd (hiff.mp hv) (not_ContainsFacet_of_short data (by omega))
    have hi : isAscii fs path = (false, none) := Prod.ext h1 herr
    have hnew := NewSTLCalc_of_isAscii_false fs path data hfs hi
    obtain ⟨e, p1, k1, hr⟩ :=
      GetVolume_header_short (binaryModel data path) data 0 0 u rfl rfl rfl hlt
    exact ⟨binaryModel data path, hnew, rfl, ⟨e, by rw [hr]⟩, by rw [hr]; rfl, by rw [hr]; rfl⟩
  · intro he
    subst he
    simp [NewSTLCalc, isAscii, osOpen, hfs]

theorem short_file_fails_at_decode_witness :
    ∃ c, NewSTLCalc (fun _ => some [1, 2, 3]) "s.stl" = (some c, none) ∧ c.bBinary = true ∧
      (∃ e, (GetVolume c "cm").1 = (0, some e)) ∧
      (GetVolume c "cm").2.flag = false ∧ (GetVolume c "cm").2.trianglesCount = 0 :=
  (short_file_fails_at_decode (fun _ => some [1, 2, 3]) "s.stl" [1, 2, 3] "cm" rfl
    (by decide)).1 (by decide)

theorem short_file_fails_at_decode_counterexample :
    ([] : List Byte).length < 84 ∧
    NewSTLCalc (fun _ => some []) "empty.stl" = (none, some GoError.eof) := by
  refine ⟨by decide, ?_⟩
  simp [NewSTLCalc, isAscii, osOpen]

/-! ## The public methods over float64 -/

namespace IEEE

theorem readTriangle_SetDensity_f64 (c : STLCalc) (d : F64) :
    readTriangle (SetDensity c d) = ((readTriangle c).1, SetDensity (readTriangle c).2 d) := by
  simp only [readTriangle, SetDensity]
  rcases binaryReadFloat32x3 c.fstlHandle with ⟨⟨v0, _ | e0⟩, h1⟩
  swap
  · rfl
  dsimp only
  rcases binaryReadFloat32x3 h1 with ⟨⟨v1, _ | e1⟩, h2⟩
  swap
  · rfl
  dsimp only
  rcases binaryReadFloat32x3 h2 with ⟨⟨v2, _ | e2⟩, h3⟩
  swap
  · rfl
  dsimp only
  rcases binaryReadFloat32x3 h3 with ⟨⟨v3, _ | e3⟩, h4⟩
  swap
  · rfl
  dsimp only
  rcases binaryReadUint16 h4 with ⟨⟨a, _ | e4⟩, h5⟩ <;> rfl

theorem readTriangles_SetDensity_f64 (n : Nat) : ∀ (total : F64) (c : STLCalc) (d : F64),
    readTriangles n total (SetDensity c d)
      = ((readTriangles n total c).1, SetDensity (readTriangles n total c).2 d) := by
  induction n with
  | zero => intro total c d; rfl
  | succ n ih =>
    intro total c d
    simp only [readTriangles, readTriangle_SetDensity_f64]
    rcases readTriangle c with ⟨⟨v, _ | e⟩, c1⟩
    · exact ih _ _ _
    · rfl

theorem readBinaryVolume_SetDensity_f64 (c : STLCalc) (d : F64) :
    readBinaryVolume (SetDensity c d)
      = ((readBinaryVolume c).1, SetDensity (readBinaryVolume c).2 d) := by
  simp only [readBinaryVolume]
  have hh : (SetDensity c d).fstlHandle = c.fstlHandle := rfl
  rw [hh]
  rcases fileSeek c.fstlHandle 80 with ⟨_ | e, h1⟩
  · simp only
    rcases binaryReadUint32 h1 with ⟨⟨n, _ | e1⟩, h2⟩
    · simp only
      have := readTriangles_SetDensity_f64 n zero
        { c with fstlHandle := h2, trianglesCount := n } d
      simp only [SetDensity] at this ⊢
      rw [this]
      rcases readTriangles n zero { c with fstlHandle := h2, trianglesCount := n }
        with ⟨⟨v, _ | e2⟩, c1⟩ <;> rfl
    · rfl
  · rfl

theorem GetVolume_SetDensity_f64 (c : STLCalc) (d : F64) (u : String) :
    GetVolume (SetDensity c d) u = ((GetVolume c u).1, SetDensity (GetVolume c u).2 d) := by
  have hcv : calculateVolume (SetDensity c d)
      = ((calculateVolume c).1, SetDensity (calculateVolume c).2 d) := by
    simp only [calculateVolume]
    have hb : (SetDensity c d).bBinary = c.bBinary := rfl
    rw [hb]
    cases c.bBinary
    · rfl
    · simp only [if_true, readBinaryVolume_SetDensity_f64]
  simp only [GetVolume, hcv]
  have hf : (SetDensity c d).flag = c.flag := rfl
  rw [hf]
  cases c.flag
  · simp only [Bool.not_false, if_true]
    rcases calculateVolume c with ⟨⟨v, _ | e⟩, c1⟩
    · simp only [SetDensity, inch3]
      split_ifs <;> rfl
    · rfl
  · simp only [Bool.not_true, Bool.false_eq_true, if_false, SetDensity, inch3]
    split_ifs <;> rfl

theorem GetWeight_SetDensity_f64 (c : STLCalc) (v d : F64)
    (h : (GetVolume c "cm").1 = (v, none)) :
    GetWeight (SetDensity c d) = ((F64.mul v d, none), SetDensity (GetVolume c "cm").2 d) := by
  rw [GetWeight, GetVolume_SetDensity_f64, h]
  rfl

theorem GetVolume_density_f64 (c : STLCalc) (u : String) :
    (GetVolume c u).2.density = c.density := by
  have h := GetVolume_SetDensity_f64 c c.density u
  have e : SetDensity c c.density = c := rfl
  rw [e] at h
  exact congrArg (fun r => r.2.density) h

theorem GetVolume_of_flag_f64 (c : STLCalc) (u : String) (hf : c.flag = true) :
    GetVolume c u
      = ((if u = "cm" then F64.div c.volume (constant 1000 1)
          else F64.mul (F64.div c.volume (constant 1000 1)) (constant 610237441 10000000000),
          none), c) := by
  simp only [GetVolume, hf, inch3, Bool.not_true, Bool.false_eq_true, if_false]
  split_ifs <;> rfl

theorem GetVolume_ok_flag_f64 (c : STLCalc) (u : String) (h : (GetVolume c u).1.2 = none) :
    (GetVolume c u).2.flag = true ∧
    (GetVolume c u).1
      = (if u = "cm" then F64.div (GetVolume c u).2.volume (constant 1000 1)
          else F64.mul (F64.div (GetVolume c u).2.volume (constant 1000 1))
            (constant 610237441 10000000000), none) := by
  by_cases hf : c.flag = true
  · rw [GetVolume_of_flag_f64 c u hf]
    exact ⟨hf, rfl⟩
  · have hf' : c.flag = false := by simpa using hf
    revert h
    simp only [GetVolume, hf', Bool.not_false, if_true, inch3]
    rcases calculateVolume c with ⟨⟨v, _ | e⟩, c1⟩
    · intro _
      refine ⟨?_, ?_⟩
      · split_ifs <;> rfl
      · split_ifs <;> rfl
    · intro h
      simp at h

theorem GetVolume_again_f64 (c : STLCalc) (u : String) (h : (GetVolume c u).1.2 = none) :
    GetVolume (GetVolume c u).2 u = ((GetVolume c u).1, (GetVolume c u).2) := by
  obtain ⟨hflag, hval⟩ := GetVolume_ok_flag_f64 c u h
  rw [GetVolume_of_flag_f64 _ u hflag, hval]

theorem NewSTLCalc_density_f64 (fs : FileSystem) (path : String) (c : STLCalc)
    (hnew : NewSTLCalc fs path = (some c, none)) : c.density = constant 104 100 := by
  unfold NewSTLCalc at hnew
  rcases hi : isAscii fs path with ⟨b, _ | err⟩
  · rw [hi] at hnew
    cases b
    · simp only [Bool.not_false, if_true] at hnew
      rcases ho : osOpen fs path with ⟨file, _ | err⟩
      · rw [ho] at hnew
        simp only [Prod.mk.injEq, Option.some.injEq, and_true] at hnew
        subst hnew
        rfl
      · rw [ho] at hnew
        simp at hnew
    · simp only [Bool.not_true, Bool.false_eq_true, if_false, Prod.mk.injEq, Option.some.injEq,
        and_true] at hnew
      subst hnew
      rfl
  · rw [hi] at hnew
    simp at hnew

theorem processSTL_of_volume_f64 (fs : FileSystem) (path : String) (r v : F64) (c : STLCalc)
    (hnew : NewSTLCalc fs path = (some c, none)) (hv : (GetVolume c "cm").1 = (v, none)) :
    processSTL fs path r
      = (some { volume := v, weight := F64.mul v (constant 104 100),
                price := intOfFloat64 (mathRound (F64.mul v r)) }, none) := by
  have hok : (GetVolume c "cm").1.2 = none := by rw [hv]
  have h2 := GetVolume_again_f64 c "cm" hok
  have hd : (GetVolume c "cm").2.density = constant 104 100 := by
    rw [GetVolume_density_f64, NewSTLCalc_density_f64 fs path c hnew]
  have hw : GetWeight (GetVolume c "cm").2
      = ((F64.mul v (constant 104 100), none), (GetVolume c "cm").2) := by
    rw [GetWeight, h2, hv]
    simp only [calculateWeight, hd]
  have hg : GetVolume c "cm" = ((v, none), (GetVolume c "cm").2) := by
    rw [← hv]
  rw [processSTL, hnew]
  simp only
  rw [hg]
  simp only
  rw [hw]

theorem processSTL_ok_inv_f64 (fs : FileSystem) (path : String) (r : F64) (resp : Response)
    (h : processSTL fs path r = (some resp, none)) :
    ∃ c v, NewSTLCalc fs path = (some c, none) ∧ (GetVolume c "cm").1 = (v, none) := by
  rw [processSTL] at h
  rcases hn : NewSTLCalc fs path with ⟨_ | c, _ | e⟩
  · rw [hn] at h
    simp at h
  · rw [hn] at h
    simp at h
  · rw [hn] at h
    simp only at h
    rcases hg : GetVolume c "cm" with ⟨⟨v, _ | e⟩, c1⟩
    · exact ⟨c, v, rfl, by rw [hg]⟩
    · rw [hg] at h
      simp at h
  · rw [hn] at h
    simp at h

end IEEE

namespace IEEE

theorem round_half_away (m d n0 : Nat) (hd : 0 < d)
    (hn : n0 = if d ≤ 2 * (m % d) then m / d + 1 else m / d) :
    |(m : ℚ) / d - (n0 : ℚ)| ≤ 1 / 2 ∧
    (|(m : ℚ) / d - (n0 : ℚ)| = 1 / 2 → (m : ℚ) / d < (n0 : ℚ)) := by
  have hdq : (0 : ℚ) < (d : ℚ) := by exact_mod_cast hd
  have hm : (m : ℚ) = (d : ℚ) * ((m / d : Nat) : ℚ) + ((m % d : Nat) : ℚ) := by
    exact_mod_cast (Nat.div_add_mod m d).symm
  have hr : ((m % d : Nat) : ℚ) < (d : ℚ) := by exact_mod_cast Nat.mod_lt m hd
  have hr0 : (0 : ℚ) ≤ ((m % d : Nat) : ℚ) := by positivity
  have hx : (m : ℚ) / d = ((m / d : Nat) : ℚ) + ((m % d : Nat) : ℚ) / d := by
    rw [eq_comm, ← sub_eq_zero]
    field_simp
    linarith
  by_cases hup : d ≤ 2 * (m % d)
  · have hupq : (d : ℚ) ≤ 2 * ((m % d : Nat) : ℚ) := by exact_mod_cast hup
    rw [if_pos hup] at hn
    have hnq : (n0 : ℚ) = ((m / d : Nat) : ℚ) + 1 := by rw [hn]; push_cast; rfl
    rw [hnq, hx]
    have hfrac : ((m % d : Nat) : ℚ) / d < 1 := by rw [div_lt_one hdq]; exact hr
    have hfrac2 : 1 / 2 ≤ ((m % d : Nat) : ℚ) / d := by
      rw [le_div_iff₀ hdq]
      linarith
    constructor
    · rw [abs_le]
      constructor <;> linarith
    · intro _
      linarith
  · have hupq : 2 * ((m % d : Nat) : ℚ) < (d : ℚ) := by
      have : 2 * (m % d) < d := Nat.lt_of_not_le hup
      exact_mod_cast this
    rw [if_neg hup] at hn
    have hnq : (n0 : ℚ) = ((m / d : Nat) : ℚ) := by rw [hn]
    rw [hnq, hx]
    have hfrac0 : 0 ≤ ((m % d : Nat) : ℚ) / d := div_nonneg hr0 hdq.le
    have hfrac2 : ((m % d : Nat) : ℚ) / d < 1 / 2 := by
      rw [div_lt_iff₀ hdq]
      linarith
    constructor
    · rw [abs_le]
      constructor <;> linarith
    · intro he
      rw [add_sub_cancel_left, abs_of_nonneg hfrac0] at he
      linarith

theorem mathRound_nearest_f64 (s : Bool) (m : Nat) (e : Int) :
    ∃ n : Int, |(F64.fin s m e).toRat - n| ≤ 1 / 2 ∧
      (|(F64.fin s m e).toRat - n| = 1 / 2 → |(F64.fin s m e).toRat| < |(n : ℚ)|) ∧
      (-2 ^ 63 ≤ n → n < 2 ^ 63 → intOfFloat64 (mathRound (F64.fin s m e)) = n) := by
  by_cases he : 0 ≤ e
  · obtain ⟨k, rfl⟩ := Int.eq_ofNat_of_zero_le he
    have hv : (F64.fin s m (k : Int)).toRat
        = (((if s then -((m * 2 ^ k : Nat) : Int) else ((m * 2 ^ k : Nat) : Int)) : Int) : ℚ) := by
      simp only [F64.toRat, zpow_natCast]
      cases s <;> simp
    refine ⟨if s then -((m * 2 ^ k : Nat) : Int) else ((m * 2 ^ k : Nat) : Int), ?_, ?_, ?_⟩
    · rw [hv, sub_self, abs_zero]
      norm_num
    · intro h
      rw [hv, sub_self, abs_zero] at h
      norm_num at h
    · intro h1 h2
      simp only [mathRound, intOfFloat64, he, if_true, Int.toNat_ofNat]
      rw [if_pos ⟨h1, h2⟩]
  · obtain ⟨k, hk⟩ : ∃ k : Nat, e = -(k : Int) := ⟨(-e).toNat, by omega⟩
    subst hk
    have hd : 0 < 2 ^ k := Nat.pos_pow_of_pos k (by decide)
    have hdk : (-(-(k : Int))).toNat = k := by omega
    obtain ⟨h1, h2⟩ := round_half_away m (2 ^ k)
      (if 2 ^ k ≤ 2 * (m % 2 ^ k) then m / 2 ^ k + 1 else m / 2 ^ k) hd rfl
    have hpow : (2 : ℚ) ^ (-(k : Int)) = 1 / ((2 ^ k : Nat) : ℚ) := by
      rw [zpow_neg, zpow_natCast]
      push_cast
      rw [one_div]
    have hv : (F64.fin s m (-(k : Int))).toRat
        = (if s then -1 else 1) * ((m : ℚ) / ((2 ^ k : Nat) : ℚ)) := by
      simp only [F64.toRat, hpow]
      ring
    have hmr : mathRound (F64.fin s m (-(k : Int)))
        = F64.fin s (if 2 ^ k ≤ 2 * (m % 2 ^ k) then m / 2 ^ k + 1 else m / 2 ^ k) 0 := by
      simp only [mathRound, he, if_false, hdk]
    have hx0 : (0 : ℚ) ≤ (m : ℚ) / ((2 ^ k : Nat) : ℚ) := by positivity
    rw [hv, hmr]
    generalize (if 2 ^ k ≤ 2 * (m % 2 ^ k) then m / 2 ^ k + 1 else m / 2 ^ k) = n0 at h1 h2 ⊢
    generalize (m : ℚ) / ((2 ^ k : Nat) : ℚ) = x at h1 h2 hx0 ⊢
    have hn0 : (0 : ℚ) ≤ (n0 : ℚ) := by positivity
    cases s
    · refine ⟨(n0 : Int), ?_, ?_, ?_⟩
      · simpa using h1
      · intro h
        have := h2 (by simpa using h)
        simp only [Bool.false_eq_true, if_false, one_mul, Int.cast_natCast]
        rw [abs_of_nonneg hx0, abs_of_nonneg hn0]
        exact this
      · intro hlo hhi
        simp only [intOfFloat64, le_refl, if_true, Int.toNat_zero, pow_zero, mul_one,
          Bool.false_eq_true, if_false]
        rw [if_pos ⟨hlo, hhi⟩]
    · have e1 : (-1 : ℚ) * x - ((-(n0 : Int) : Int) : ℚ) = -(x - (n0 : ℚ)) := by
        push_cast
        ring
      refine ⟨-(n0 : Int), ?_, ?_, ?_⟩
      · simp only [if_true]
        rw [e1, abs_neg]
        exact h1
      · intro h
        simp only [if_true] at h ⊢
        rw [e1, abs_neg] at h
        have := h2 h
        rw [show (-1 : ℚ) * x = -x by ring, abs_neg, abs_of_nonneg hx0, Int.cast_neg, abs_neg,
          Int.cast_natCast, abs_of_nonneg hn0]
        exact this
      · intro hlo hhi
        simp only [intOfFloat64, le_refl, if_true, Int.toNat_zero, pow_zero, mul_one]
        rw [if_pos ⟨hlo, hhi⟩]

end IEEE

/-! ## What the float64 code returns -/

set_option maxRecDepth 1000000 in
/-- In float64 the signed volume of the
triangle with vertices (0.1, 3, 0.7), (2.3, 0.2, 1.1), (2.9, 0.2, 1) changes
under a cyclic rotation, is not negated by exchanging the first two vertices,
and is not zero when two vertices coincide. -/
theorem signedVolumeOfTriangle_symmetry_counterexample :
    IEEE.signedVolumeOfTriangle skewP1 skewP2 skewP3
      = IEEE.F64.fin false 7758202894040104 (-54) ∧
    IEEE.signedVolumeOfTriangle skewP2 skewP3 skewP1
      = IEEE.F64.fin false 7758202894040106 (-54) ∧
    IEEE.signedVolumeOfTriangle skewP2 skewP1 skewP3
      = IEEE.F64.fin true 7758202894040106 (-54) ∧
    IEEE.signedVolumeOfTriangle skewP1 skewP1 skewP3
      = IEEE.F64.fin true 7505999378950826 (-107) := by
  decide

set_option maxRecDepth 1000000 in
/-- In float64 the one-triangle file
`skewFile` and the file with its first two vertices exchanged give different
volumes. -/
theorem readBinaryVolume_abs_winding_counterexample :
    (IEEE.readBinaryVolume (IEEE.binaryModel skewFile "a.stl")).1
      = (IEEE.F64.fin false 7758202894040104 (-54), none) ∧
    (IEEE.readBinaryVolume (IEEE.binaryModel skewFileReversed "b.stl")).1
      = (IEEE.F64.fin false 7758202894040106 (-54), none) := by
  decide

set_option maxRecDepth 1000000 in
/-- On the twelve-record cube file of edge 10 the float64 code caches 999.9999999999999 (`8796093022207999 * 2^-43`),
`GetVolume("cm")` returns 0.9999999999999999 and `GetWeight()` returns
1.0399999999999998, none of them the float64 values of 1000, 1 and 1.04. -/
theorem cube_volume_and_weight_counterexample :
    IEEE.NewSTLCalc (fun _ => some cubeFile) "cube.stl"
      = (some (IEEE.binaryModel cubeFile "cube.stl"), none) ∧
    (IEEE.GetVolume (IEEE.binaryModel cubeFile "cube.stl") "cm").2.volume
      = IEEE.F64.fin false 8796093022207999 (-43) ∧
    (IEEE.GetVolume (IEEE.binaryModel cubeFile "cube.stl") "cm").1
      = (IEEE.F64.fin false 9007199254740991 (-53), none) ∧
    (IEEE.GetWeight (IEEE.binaryModel cubeFile "cube.stl")).1
      = (IEEE.F64.fin false 4683743612465315 (-52), none) ∧
    IEEE.constant 1000 1 = IEEE.F64.fin false 8796093022208000 (-43) ∧
    IEEE.constant 1 1 = IEEE.F64.fin false 4503599627370496 (-52) ∧
    IEEE.constant 104 100 = IEEE.F64.fin false 4683743612465316 (-52) := by
  decide

set_option exponentiation.threshold 2000 in
set_option maxRecDepth 1000000 in
/-- Doubling the density need not double the float64 weight: on the cube file
of edge 8 (volume 0.5119999999999999 cm3) the weight is `2^-1074` both for the density
`2^-1074` and for twice that density. -/
theorem GetWeight_doubling_counterexample :
    IEEE.NewSTLCalc (fun _ => some cube8File) "c8.stl"
      = (some (IEEE.binaryModel cube8File "c8.stl"), none) ∧
    (IEEE.GetVolume (IEEE.binaryModel cube8File "c8.stl") "cm").1
      = (IEEE.F64.fin false 4611686018427387 (-53), none) ∧
    (IEEE.GetWeight (IEEE.SetDensity (IEEE.binaryModel cube8File "c8.stl")
        (IEEE.F64.fin false 1 (-1074)))).1 = (IEEE.F64.fin false 1 (-1074), none) ∧
    IEEE.F64.mul (IEEE.constant 2 1) (IEEE.F64.fin false 1 (-1074))
      = IEEE.F64.fin false 2 (-1074) ∧
    (IEEE.GetWeight (IEEE.SetDensity (IEEE.binaryModel cube8File "c8.stl")
        (IEEE.F64.fin false 2 (-1074)))).1 = (IEEE.F64.fin false 1 (-1074), none) := by
  decide

set_option maxRecDepth 1000000 in
/-- C15: `isAscii` does not classify by the facet grammar with arbitrary
numeric fields.  It answers false on an ASCII STL file whose numbers carry a
signed exponent (`0.000000e+00`), so `NewSTLCalc` treats that file as Binary;
and it answers true on a text of at least 84 bytes whose "numeric" fields are
`e`, `-` and `.`. -/
theorem isAscii_misclassifies :
    isAscii (fun _ => some asciiExponentSample) "a.stl" = (false, none) ∧
    NewSTLCalc (fun _ => some asciiExponentSample) "a.stl"
      = (some (binaryModel asciiExponentSample "a.stl"), none) ∧
    isAscii (fun _ => some looseSample) "l.stl" = (true, none) ∧
    84 ≤ looseSample.length := by
  refine ⟨by decide, NewSTLCalc_of_isAscii_false _ _ asciiExponentSample rfl (by decide),
    by decide, by decide⟩

/-- C19 (as amended): when `processSTL` succeeds with base price `r`, the
returned `volume` is what `GetVolume("cm")` returns on the freshly opened
model, `weight` is the float64 product `volume * 1.04`, and `price` is
`int(math.Round(volume * r))` of the float64 product: when that product is
finite, an integer nearest to it, halves going away from zero, provided this
integer lies in the range of a 64-bit `int`. -/
theorem processSTL_response (fs : FileSystem) (path : String) (r : IEEE.F64)
    (resp : IEEE.Response) (h : IEEE.processSTL fs path r = (some resp, none)) :
    ∃ c, IEEE.NewSTLCalc fs path = (some c, none) ∧
      (IEEE.GetVolume c "cm").1 = (resp.volume, none) ∧
      resp.weight = IEEE.F64.mul resp.volume (IEEE.constant 104 100) ∧
      resp.price = IEEE.intOfFloat64 (IEEE.mathRound (IEEE.F64.mul resp.volume r)) ∧
      ∀ (s : Bool) (m : Nat) (e : Int), IEEE.F64.mul resp.volume r = IEEE.F64.fin s m e →
        ∃ n : Int, |(IEEE.F64.fin s m e).toRat - n| ≤ 1 / 2 ∧
          (|(IEEE.F64.fin s m e).toRat - n| = 1 / 2 →
            |(IEEE.F64.fin s m e).toRat| < |(n : ℚ)|) ∧
          (-2 ^ 63 ≤ n → n < 2 ^ 63 → resp.price = n) := by
  obtain ⟨c, v, hnew, hv⟩ := IEEE.processSTL_ok_inv_f64 fs path r resp h
  rw [IEEE.processSTL_of_volume_f64 fs path r v c hnew hv] at h
  simp only [Prod.mk.injEq, Option.some.injEq, and_true] at h
  subst h
  refine ⟨c, hnew, hv, rfl, rfl, ?_⟩
  intro s m e hp
  obtain ⟨n, h1, h2, h3⟩ := IEEE.mathRound_nearest_f64 s m e
  refine ⟨n, h1, h2, ?_⟩
  intro hlo hhi
  show IEEE.intOfFloat64 (IEEE.mathRound (IEEE.F64.mul v r)) = n
  rw [hp]
  exact h3 hlo hhi

set_option maxRecDepth 1000000 in
theorem processSTL_response_witness :
    ∃ c, IEEE.NewSTLCalc (fun _ => some cubeFile) "cube.stl" = (some c, none) ∧
      (IEEE.GetVolume c "cm").1 = (cubeResponse.volume, none) ∧
      cubeResponse.weight = IEEE.F64.mul cubeResponse.volume (IEEE.constant 104 100) ∧
      cubeResponse.price
        = IEEE.intOfFloat64 (IEEE.mathRound
            (IEEE.F64.mul cubeResponse.volume (IEEE.constant 3 2))) ∧
      ∀ (s : Bool) (m : Nat) (e : Int),
        IEEE.F64.mul cubeResponse.volume (IEEE.constant 3 2) = IEEE.F64.fin s m e →
        ∃ n : Int, |(IEEE.F64.fin s m e).toRat - n| ≤ 1 / 2 ∧
          (|(IEEE.F64.fin s m e).toRat - n| = 1 / 2 →
            |(IEEE.F64.fin s m e).toRat| < |(n : ℚ)|) ∧
          (-2 ^ 63 ≤ n → n < 2 ^ 63 → cubeResponse.price = n) :=
  processSTL_response (fun _ => some cubeFile) "cube.stl" (IEEE.constant 3 2) cubeResponse
    (by decide)

set_option maxRecDepth 1000000 in
theorem processSTL_response_counterexample :
    IEEE.processSTL (fun _ => some cubeFile) "cube.stl" (IEEE.constant (10 ^ 19) 1)
      = (some { volume := IEEE.F64.fin false 9007199254740991 (-53),
                weight := IEEE.F64.fin false 4683743612465315 (-52),
                price := -2 ^ 63 }, none) ∧
    IEEE.F64.mul (IEEE.F64.fin false 9007199254740991 (-53)) (IEEE.constant (10 ^ 19) 1)
      = IEEE.F64.fin false 4882812499999999 11 ∧
    (2 : Int) ^ 63 ≤ 4882812499999999 * 2 ^ 11 := by
  decide

/-- C7 (as amended): when `GetVolume("cm")` returns `v`, `GetWeight` after
`SetDensity(d)` returns the float64 product `v * d`, whether the density is
set before or after the volume was computed, and after a later
`SetDensity(d2)` it returns `v * d2`: no weight is cached.  With the product
taken in exact arithmetic, doubling the density doubles the weight. -/
theorem GetWeight_product_and_doubling (c : IEEE.STLCalc) (v d d2 : IEEE.F64)
    (h : (IEEE.GetVolume c "cm").1 = (v, none))
    (cq : STLCalc) (vq dq : Float64) (hq : (GetVolume cq "cm").1 = (vq, none)) :
    (IEEE.GetWeight (IEEE.SetDensity c d)).1 = (IEEE.F64.mul v d, none) ∧
    (IEEE.GetWeight (IEEE.SetDensity (IEEE.GetVolume c "cm").2 d)).1
      = (IEEE.F64.mul v d, none) ∧
    (IEEE.GetWeight (IEEE.SetDensity (IEEE.GetWeight (IEEE.SetDensity c d)).2 d2)).1
      = (IEEE.F64.mul v d2, none) ∧
    (GetWeight (SetDensity cq dq)).1 = (vq * dq, none) ∧
    (GetWeight (SetDensity (GetWeight (SetDensity cq dq)).2 (2 * dq))).1
      = (2 * (vq * dq), none) := by
  have hok : (IEEE.GetVolume c "cm").1.2 = none := by rw [h]
  have h2 : (IEEE.GetVolume (IEEE.GetVolume c "cm").2 "cm").1 = (v, none) := by
    rw [IEEE.GetVolume_again_f64 c "cm" hok, h]
  have hx := GetWeight_exact_doubling cq vq dq hq
  refine ⟨?_, ?_, ?_, hx.1, hx.2.2⟩
  · rw [IEEE.GetWeight_SetDensity_f64 c v d h]
  · rw [IEEE.GetWeight_SetDensity_f64 _ v d h2]
  · rw [IEEE.GetWeight_SetDensity_f64 c v d h]
    have h3 : (IEEE.GetVolume (IEEE.SetDensity (IEEE.GetVolume c "cm").2 d) "cm").1
        = (v, none) := by
      rw [IEEE.GetVolume_SetDensity_f64, h2]
    rw [IEEE.GetWeight_SetDensity_f64 _ v d2 h3]

set_option maxRecDepth 1000000 in
theorem GetWeight_product_and_doubling_witness :
    (IEEE.GetWeight (IEEE.SetDensity (IEEE.binaryModel cubeFile "cube.stl")
        (IEEE.constant 3 1))).1
      = (IEEE.F64.mul (IEEE.F64.fin false 9007199254740991 (-53)) (IEEE.constant 3 1), none) ∧
    (GetWeight (SetDensity (GetWeight (SetDensity (binaryModel cubeFile "cube.stl") 3)).2
        (2 * 3))).1 = (2 * ((1 : ℚ) * 3), none) :=
  have h := GetWeight_product_and_doubling (IEEE.binaryModel cubeFile "cube.stl")
    (IEEE.F64.fin false 9007199254740991 (-53)) (IEEE.constant 3 1) (IEEE.constant 6 1)
    (by decide) (binaryModel cubeFile "cube.stl") 1 3 cubeFile_GetVolume
  ⟨h.1, h.2.2.2.2⟩

end StlVolume
